import Mathlib

/-!
# Device Mapper Proxy (`dmp.c`): statistics, remapping, lifecycle and report

A shallow embedding of `src/dmp.c`.  C state becomes explicit state passing:
`global_stats` is threaded through every function that touches it, the context
reached through `ti->private` is the `priv` field of `dm_target`, and a call
that would dereference a missing context returns `none`.

Machine integers are natural numbers reduced modulo their width where the C
code can overflow (`atomic64_t`, `u64`, `sector_t`: 64 bits; `unsigned int`:
32 bits).

`dmp.c` is a kernel module, so part of what it calls lives in the kernel.
The atomic counters, the errno and block-layer constants and the `%llu`
conversion of `sprintf` are modelled by their kernel meaning.  The block-layer
and device-mapper helpers (`bio_data_dir`, `bio_op`, `bio_sectors`,
`dm_target_offset`, `dm_get_device`) are a parameter, `KernelOps`, of every
function that uses them; `linux` gives them the meaning they have in the Linux
headers.  Results about the counters hold for every `KernelOps`.

Calls made one at a time are the state machine `step` / `run`.  Concurrent
callers are modelled at the granularity of the atomic calls of
`dmp_update_stats`: `atomic_run` executes any interleaving of them.
-/

namespace Dmp

/-! ## Kernel constants and atomics -/

/-- Number of values of a 64-bit machine word (`atomic64_t`, `u64`, `sector_t`). -/
def U64 : Nat := 2 ^ 64

/-- Number of values of `unsigned int`. -/
def U32 : Nat := 2 ^ 32

/-- The errno `EINVAL`. -/
def EINVAL : Int := 22

/-- The errno `ENOMEM`. -/
def ENOMEM : Int := 12

/-- Data direction `READ`. -/
def READ : Nat := 0

/-- Data direction `WRITE`. -/
def WRITE : Nat := 1

/-- Operation code `REQ_OP_FLUSH`. -/
def REQ_OP_FLUSH : Nat := 2

/-- Return value `DM_MAPIO_REMAPPED` of a map function. -/
def DM_MAPIO_REMAPPED : Int := 1

/-- Kernel `atomic64_set(v, i)`: the new value of the counter, as an unsigned
64-bit word. -/
def atomic64_set (i : Nat) : Nat := i % U64

/-- Kernel `atomic64_inc(v)`: the counter plus one, wrapping at 64 bits. -/
def atomic64_inc (v : Nat) : Nat := (v + 1) % U64

/-- Kernel `atomic64_add(i, v)`: the counter plus `i`, wrapping at 64 bits. -/
def atomic64_add (i v : Nat) : Nat := (v + i) % U64

/-- Kernel `atomic64_read(v)` assigned to a `u64`. -/
def atomic64_read (v : Nat) : Nat := v % U64

/-! ## Data model -/

/-- Record `struct dmp_stats` (the spinlock is initialised but never taken, so it
carries no state here). -/
structure dmp_stats where
  read_reqs : Nat
  write_reqs : Nat
  read_bytes : Nat
  write_bytes : Nat
  deriving DecidableEq, Repr

/-- Record `struct dm_dev`: the fields `dmp.c` reads. -/
structure dm_dev where
  name : String
  bdev : Nat
  deriving DecidableEq, Repr

/-- Record `struct dmp_c`, the per-target context. -/
structure dmp_c where
  dev : dm_dev
  start : Nat
  stats : dmp_stats
  deriving DecidableEq, Repr

/-- Record `struct bvec_iter`: the fields `dmp.c` reads or writes. -/
structure bvec_iter where
  bi_sector : Nat
  bi_size : Nat
  deriving DecidableEq, Repr

/-- Record `struct bio`: the fields `dmp.c` reads or writes. -/
structure bio where
  bi_bdev : Nat
  bi_opf : Nat
  bi_iter : bvec_iter
  deriving DecidableEq, Repr

/-- Record `struct dm_target`: the fields `dmp.c` reads or writes.  `priv` is
`ti->private` (`none` when no context is installed), `table_mode` is
`dm_table_get_mode(ti->table)`. -/
structure dm_target where
  begin : Nat
  table_mode : Nat
  priv : Option dmp_c
  error : Option String
  num_flush_bios : Nat
  num_discard_bios : Nat
  deriving DecidableEq, Repr

/-- Enumeration `status_type_t`. -/
inductive status_type_t where
  | STATUSTYPE_INFO
  | STATUSTYPE_TABLE
  | STATUSTYPE_IMA
  deriving DecidableEq, Repr

/-- The kernel helpers used by `dmp.c` whose definitions live outside it. -/
structure KernelOps where
  /-- Helper `bio_data_dir(bio)`: `READ` or `WRITE`. -/
  bio_data_dir : bio → Nat
  /-- Helper `bio_op(bio)`: the operation code. -/
  bio_op : bio → Nat
  /-- Helper `bio_sectors(bio)`: the number of whole sectors of the request. -/
  bio_sectors : bio → Nat
  /-- Helper `dm_target_offset(ti, sector)`. -/
  dm_target_offset : dm_target → Nat → Nat
  /-- Helper `dm_get_device(ti, path, mode, &dev)`: the return code and, when it is
  zero, the device handle stored through the last argument. -/
  dm_get_device : String → Nat → Int × dm_dev

/-- The helpers as the Linux headers define them:
`bio_op(bio) = bio->bi_opf & REQ_OP_MASK` (8 bits),
`bio_data_dir(bio) = op_is_write(bio_op(bio)) ? WRITE : READ` with
`op_is_write(op) = op & 1`,
`bio_sectors(bio) = bio->bi_iter.bi_size >> 9`,
`dm_target_offset(ti, sector) = (sector) - (ti)->begin` on `sector_t`.
Device resolution stays a parameter. -/
def linux (get : String → Nat → Int × dm_dev) : KernelOps where
  bio_data_dir := fun b => if (b.bi_opf % 256) % 2 = 1 then WRITE else READ
  bio_op := fun b => b.bi_opf % 256
  bio_sectors := fun b => (b.bi_iter.bi_size % U32) / 512
  dm_target_offset := fun ti sector => (sector % U64 + U64 - ti.begin % U64) % U64
  dm_get_device := get

/-! ## Constructor and destructor -/

/-- What a call of `dmp_ctr` leaves behind: the return code, the target, the
paths handed to `dm_get_device` during the call, and the device reference the
call keeps (none when it fails). -/
structure ctr_result where
  ret : Int
  ti : dm_target
  lookups : List String
  held : Option dm_dev
  deriving DecidableEq, Repr

/-- The zeroed statistics block written by the four `atomic64_set(.., 0)`. -/
def stats_init : dmp_stats :=
  { read_reqs := atomic64_set 0, write_reqs := atomic64_set 0,
    read_bytes := atomic64_set 0, write_bytes := atomic64_set 0 }

/-- Function `dmp_ctr(ti, argc, argv)`.  `alloc_ok` says whether `kzalloc` returns a
non-null pointer; `argv` is indexed like the C array. -/
def dmp_ctr (k : KernelOps) (alloc_ok : Bool) (ti : dm_target) (argc : Nat)
    (argv : Nat → String) : ctr_result :=
  if argc ≠ 1 then
    { ret := -EINVAL, ti := { ti with error := some "Invalid argument count" },
      lookups := [], held := none }
  else if alloc_ok = false then
    { ret := -ENOMEM, ti := { ti with error := some "Cannot allocate context" },
      lookups := [], held := none }
  else
    let stats := stats_init
    let r := k.dm_get_device (argv 0) ti.table_mode
    if r.1 ≠ 0 then
      { ret := r.1, ti := { ti with error := some "Device lookup failed" },
        lookups := [argv 0], held := none }
    else
      { ret := 0,
        ti := { ti with
                  priv := some { dev := r.2, start := 0, stats := stats },
                  num_flush_bios := 1, num_discard_bios := 1 },
        lookups := [argv 0], held := some r.2 }

/-- Function `dmp_dtr(ti)`: hands the device back (`dm_put_device`) and frees the
context.  The result is the target without a context and the released device;
`none` when there is no context to read. -/
def dmp_dtr (ti : dm_target) : Option (dm_target × dm_dev) :=
  match ti.priv with
  | none => none
  | some dmp => some ({ ti with priv := none }, dmp.dev)

/-! ## Statistics update and map -/

/-- Function `dmp_update_stats(dmp, bio)`: returns the updated context and the updated
`global_stats`. -/
def dmp_update_stats (k : KernelOps) (g : dmp_stats) (dmp : dmp_c) (b : bio) :
    dmp_c × dmp_stats :=
  let bytes := b.bi_iter.bi_size % U32
  if k.bio_data_dir b = READ then
    ({ dmp with stats := { dmp.stats with
                             read_reqs := atomic64_inc dmp.stats.read_reqs,
                             read_bytes := atomic64_add bytes dmp.stats.read_bytes } },
     { g with read_reqs := atomic64_inc g.read_reqs,
              read_bytes := atomic64_add bytes g.read_bytes })
  else
    ({ dmp with stats := { dmp.stats with
                             write_reqs := atomic64_inc dmp.stats.write_reqs,
                             write_bytes := atomic64_add bytes dmp.stats.write_bytes } },
     { g with write_reqs := atomic64_inc g.write_reqs,
              write_bytes := atomic64_add bytes g.write_bytes })

/-- Outcome of `dmp_map`: return code, `global_stats`, the target and the
request after the call. -/
structure map_result where
  ret : Int
  global_stats : dmp_stats
  ti : dm_target
  bio : bio
  deriving DecidableEq, Repr

/-- Function `dmp_map(ti, bio)`.  `bio_set_dev` is modelled by its assignment to
`bi_bdev`. -/
def dmp_map (k : KernelOps) (g : dmp_stats) (ti : dm_target) (b : bio) :
    Option map_result :=
  match ti.priv with
  | none => none
  | some dmp =>
    let u := dmp_update_stats k g dmp b
    let b1 : bio := { b with bi_bdev := u.1.dev.bdev }
    let b2 : bio :=
      if k.bio_sectors b1 ≠ 0 ∨ k.bio_op b1 = REQ_OP_FLUSH then
        { b1 with bi_iter := { b1.bi_iter with
                                 bi_sector := k.dm_target_offset ti b1.bi_iter.bi_sector } }
      else b1
    some { ret := DM_MAPIO_REMAPPED, global_stats := u.2,
           ti := { ti with priv := some u.1 }, bio := b2 }

/-! ## Status -/

/-- The largest `int`, above which the kernel's `vsnprintf` refuses a buffer
size. -/
def INT_MAX : Nat := 2 ^ 31 - 1

/-- Function `dmp_status(ti, type, status_flags, result, maxlen)`: the content
of the `result` buffer, as a C string, after the call.  `STATUSTYPE_INFO`
stores a terminator at `result[0]` and reads nothing of the context;
`STATUSTYPE_TABLE` reads `dmp->dev->name` (so it needs the context) and
prints it with `scnprintf`, which keeps at most `maxlen - 1` characters and
writes nothing when `maxlen` is zero or above `INT_MAX`; any other type
leaves the buffer alone. -/
def dmp_status (ti : dm_target) (type : status_type_t) (result : String)
    (maxlen : Nat) : Option String :=
  match type with
  | status_type_t.STATUSTYPE_INFO => some ""
  | status_type_t.STATUSTYPE_TABLE =>
    match ti.priv with
    | none => none
    | some dmp =>
      if maxlen = 0 ∨ INT_MAX < maxlen then some result
      else some (String.mk (dmp.dev.name.toList.take (maxlen - 1)))
  | status_type_t.STATUSTYPE_IMA => some result

/-! ## Report -/

/-- One decimal digit as a character. -/
def dec_char (d : Nat) : Char := Char.ofNat (48 + d % 10)

/-- Decimal digits of `n`, most significant first, in front of `acc`; `fuel`
bounds the number of digits produced, like the fixed scratch buffer of the
kernel's number printer. -/
def put_dec : Nat → Nat → List Char → List Char
  | 0, _, acc => acc
  | fuel + 1, n, acc =>
    if n / 10 = 0 then dec_char n :: acc
    else put_dec fuel (n / 10) (dec_char n :: acc)

/-- Conversion `%llu` of the kernel's `sprintf`: an `unsigned long long` in
base 10, no sign, no padding (at most 20 digits). -/
def fmt_llu (n : Nat) : List Char := put_dec 20 (n % U64) []

/-- Kernel `sprintf` restricted to what `volumes_show` uses: ordinary
characters are copied, each `%llu` consumes the next argument. -/
def sprintf : List Char → List Nat → List Char
  | '%' :: 'l' :: 'l' :: 'u' :: rest, a :: args => fmt_llu a ++ sprintf rest args
  | c :: rest, args => c :: sprintf rest args
  | [], _ => []

/-- Unsigned 64-bit division; `none` stands for the divide fault on a zero
divisor. -/
def div_u64 (a b : Nat) : Option Nat :=
  if b = 0 then none else some (a / b)

/-- The six values `volumes_show` passes to `sprintf`, in argument order. -/
structure show_args where
  read_reqs : Nat
  avg_read_size : Nat
  write_reqs : Nat
  avg_write_size : Nat
  total_reqs : Nat
  avg_total_size : Nat
  deriving DecidableEq, Repr

/-- The local variables of `volumes_show` (lines 165 to 174), computed from
`global_stats`. -/
def volumes_locals (g : dmp_stats) : Option show_args :=
  let read_reqs := atomic64_read g.read_reqs
  let write_reqs := atomic64_read g.write_reqs
  let read_bytes := atomic64_read g.read_bytes
  let write_bytes := atomic64_read g.write_bytes
  let total_reqs := (read_reqs + write_reqs) % U64
  let total_bytes := (read_bytes + write_bytes) % U64
  (if read_reqs ≠ 0 then div_u64 read_bytes read_reqs else some 0).bind fun avg_read_size =>
  (if write_reqs ≠ 0 then div_u64 write_bytes write_reqs else some 0).bind fun avg_write_size =>
  (if total_reqs ≠ 0 then div_u64 total_bytes total_reqs else some 0).bind fun avg_total_size =>
  some { read_reqs := read_reqs, avg_read_size := avg_read_size,
         write_reqs := write_reqs, avg_write_size := avg_write_size,
         total_reqs := total_reqs, avg_total_size := avg_total_size }

/-- The format string of `volumes_show`. -/
def volumes_format : String :=
  "read:\n  reqs: %llu\n  avg size: %llu\nwrite:\n  reqs: %llu\n  avg size: %llu\ntotal:\n  reqs: %llu\n  avg size: %llu\n"

/-- Function `volumes_show(kobj, attr, buf)`: the number of characters
written (the return value) and the text left in `buf`. -/
def volumes_show (g : dmp_stats) : Option (Int × String) :=
  (volumes_locals g).map fun a =>
    let text := sprintf volumes_format.toList
      [a.read_reqs, a.avg_read_size, a.write_reqs, a.avg_write_size,
       a.total_reqs, a.avg_total_size]
    ((text.length : Int), String.mk text)

/-! ## Module initialisation -/

/-- What `dm_dmp_init` leaves behind: return code, `global_stats`, whether the
target type is registered, whether `dmp_kobj` exists and whether the `stat`
attribute group exists. -/
structure init_result where
  ret : Int
  global_stats : dmp_stats
  registered : Bool
  kobj : Bool
  group : Bool
  deriving DecidableEq, Repr

/-- Function `dm_dmp_init()`.  `reg` is the return code of
`dm_register_target`, `kobj_ok` says whether `kobject_create_and_add` returns
an object, `grp` is the return code of `sysfs_create_group`. -/
def dm_dmp_init (reg : Int) (kobj_ok : Bool) (grp : Int) : init_result :=
  let g : dmp_stats :=
    { read_reqs := atomic64_set 0, write_reqs := atomic64_set 0,
      read_bytes := atomic64_set 0, write_bytes := atomic64_set 0 }
  if reg < 0 then
    { ret := reg, global_stats := g, registered := false, kobj := false, group := false }
  else if kobj_ok = false then
    { ret := -ENOMEM, global_stats := g, registered := false, kobj := false, group := false }
  else if grp ≠ 0 then
    { ret := grp, global_stats := g, registered := false, kobj := false, group := false }
  else
    { ret := 0, global_stats := g, registered := true, kobj := true, group := true }

/-! ## The module as a state machine

The device-mapper core owns the targets and calls the entry points of
`dmp.c` one at a time.  `World` is the state those calls share. -/

/-- State shared by the entry points: `global_stats`, the targets of the host
(indexed by a number), the paths passed to `dm_get_device` so far and the
device references currently held. -/
structure World where
  global_stats : dmp_stats
  targets : Nat → dm_target
  lookups : List String
  held : List dm_dev

/-- One call of an entry point of the module by the host. -/
inductive Op where
  | ctr (i : Nat) (alloc_ok : Bool) (argc : Nat) (argv : Nat → String)
  | dtr (i : Nat)
  | map (i : Nat) (b : bio)
  | status (i : Nat) (type : status_type_t) (result : String) (maxlen : Nat)
  | report

/-- Effect of one call on the shared state; `none` when the call would read a
context that does not exist. -/
def step (k : KernelOps) (w : World) : Op → Option World
  | Op.ctr i alloc_ok argc argv =>
    let c := dmp_ctr k alloc_ok (w.targets i) argc argv
    some { w with targets := Function.update w.targets i c.ti,
                  lookups := w.lookups ++ c.lookups,
                  held := match c.held with
                          | some d => d :: w.held
                          | none => w.held }
  | Op.dtr i =>
    match dmp_dtr (w.targets i) with
    | none => none
    | some r => some { w with targets := Function.update w.targets i r.1,
                              held := w.held.erase r.2 }
  | Op.map i b =>
    match dmp_map k w.global_stats (w.targets i) b with
    | none => none
    | some r => some { w with global_stats := r.global_stats,
                              targets := Function.update w.targets i r.ti }
  | Op.status i type result maxlen =>
    match dmp_status (w.targets i) type result maxlen with
    | none => none
    | some _ => some w
  | Op.report =>
    match volumes_show w.global_stats with
    | none => none
    | some _ => some w

/-- A sequence of calls, in order. -/
def run (k : KernelOps) : World → List Op → Option World
  | w, [] => some w
  | w, op :: ops => (step k w op).bind fun w1 => run k w1 ops

/-- The state right after a successful `dm_dmp_init`, with the targets the
host is about to construct. -/
def module_loaded (targets : Nat → dm_target) : World :=
  { global_stats := (dm_dmp_init 0 true 0).global_stats, targets := targets,
    lookups := [], held := [] }

/-! ## Auxiliary definitions for the statements -/

/-- One line of the report that carries a number: the label, the number in
base 10, a newline. -/
def report_line (label : String) (n : Nat) : List Char :=
  label.toList ++ fmt_llu n ++ ['\n']

/-- Value of a string of decimal digits, most significant first. -/
def dec_val (cs : List Char) : Nat :=
  cs.foldl (fun v c => 10 * v + (c.toNat - 48)) 0

/-- Field-wise exact sum of two counter sets (no wrap-around). -/
def stats_plus (x y : dmp_stats) : dmp_stats :=
  { read_reqs := x.read_reqs + y.read_reqs, write_reqs := x.write_reqs + y.write_reqs,
    read_bytes := x.read_bytes + y.read_bytes, write_bytes := x.write_bytes + y.write_bytes }

/-- Field-wise reduction modulo 2^64. -/
def stats_mod (x : dmp_stats) : dmp_stats :=
  { read_reqs := x.read_reqs % U64, write_reqs := x.write_reqs % U64,
    read_bytes := x.read_bytes % U64, write_bytes := x.write_bytes % U64 }

/-- Every field is an unsigned 64-bit value. -/
def stats_wf (x : dmp_stats) : Prop :=
  x.read_reqs < U64 ∧ x.write_reqs < U64 ∧ x.read_bytes < U64 ∧ x.write_bytes < U64

instance (x : dmp_stats) : Decidable (stats_wf x) := by
  unfold stats_wf
  infer_instance

/-- What `dmp_update_stats` adds for one request to each field of a counter
set it accounts the request in: 1 to the request count and the byte length to
the byte count of the request's direction, nothing to the other direction. -/
def request_adds (k : KernelOps) (b : bio) : dmp_stats :=
  if k.bio_data_dir b = READ then
    { read_reqs := 1, write_reqs := 0, read_bytes := b.bi_iter.bi_size % U32, write_bytes := 0 }
  else
    { read_reqs := 0, write_reqs := 1, read_bytes := 0, write_bytes := b.bi_iter.bi_size % U32 }

/-- What one call of an entry point adds to the counters: the request's
amounts for `dmp_map`, nothing for every other entry point. -/
def op_adds (k : KernelOps) : Op → dmp_stats
  | Op.map _ b => request_adds k b
  | _ => { read_reqs := 0, write_reqs := 0, read_bytes := 0, write_bytes := 0 }

/-- Field by field: a 64-bit value of `x` to which adding the amount in `a`
stays below 2^64 is not larger than the same field of `y`. -/
def stats_mono (a x y : dmp_stats) : Prop :=
  (x.read_reqs < U64 → x.read_reqs + a.read_reqs < U64 → x.read_reqs ≤ y.read_reqs) ∧
  (x.write_reqs < U64 → x.write_reqs + a.write_reqs < U64 → x.write_reqs ≤ y.write_reqs) ∧
  (x.read_bytes < U64 → x.read_bytes + a.read_bytes < U64 → x.read_bytes ≤ y.read_bytes) ∧
  (x.write_bytes < U64 → x.write_bytes + a.write_bytes < U64 → x.write_bytes ≤ y.write_bytes)

instance (a x y : dmp_stats) : Decidable (stats_mono a x y) := by
  unfold stats_mono
  infer_instance

/-- Field by field: a 64-bit value of `x` to which adding the amount in `a`
reaches 2^64 or more has wrapped around in `y`: the field of `y` is the sum
minus 2^64. -/
def stats_wrap (a x y : dmp_stats) : Prop :=
  (x.read_reqs < U64 → U64 ≤ x.read_reqs + a.read_reqs →
    y.read_reqs + U64 = x.read_reqs + a.read_reqs) ∧
  (x.write_reqs < U64 → U64 ≤ x.write_reqs + a.write_reqs →
    y.write_reqs + U64 = x.write_reqs + a.write_reqs) ∧
  (x.read_bytes < U64 → U64 ≤ x.read_bytes + a.read_bytes →
    y.read_bytes + U64 = x.read_bytes + a.read_bytes) ∧
  (x.write_bytes < U64 → U64 ≤ x.write_bytes + a.write_bytes →
    y.write_bytes + U64 = x.write_bytes + a.write_bytes)

instance (a x y : dmp_stats) : Decidable (stats_wrap a x y) := by
  unfold stats_wrap
  infer_instance

/-- The calls `dmp_map(ti_i, b)` for the requests `bs`, in order, all on
target `i`. -/
def map_calls (i : Nat) (bs : List bio) : List Op :=
  bs.map (Op.map i)

/-- The calls `dmp_map` for a sequence of requests, each tagged with the
target it is delivered to. -/
def routed_calls (ms : List (Nat × bio)) : List Op :=
  ms.map fun m => Op.map m.1 m.2

/-- A read request of `size` bytes at sector `sector`. -/
def read_bio (sector size : Nat) : bio :=
  { bi_bdev := 0, bi_opf := 0, bi_iter := { bi_sector := sector, bi_size := size } }

/-! ## Concurrent execution: interleavings of the atomic field updates

`dmp_update_stats` is four atomic read-modify-write calls.  When several
execution contexts run `dmp_map` at once, what the counters see is some
interleaving of these calls that keeps the program order of each context. -/

/-- One of the four counters of a `struct dmp_stats`. -/
inductive stat_field where
  | read_reqs
  | write_reqs
  | read_bytes
  | write_bytes
  deriving DecidableEq, Repr

/-- One atomic call of `dmp_update_stats` on a counter: `atomic64_inc(&s->f)`
or `atomic64_add(n, &s->f)`. -/
inductive atomic_call where
  | inc (f : stat_field)
  | add (n : Nat) (f : stat_field)
  deriving DecidableEq, Repr

/-- One atomic call together with the counter set it addresses: `none` is
`global_stats`, `some i` is `dmp->stats` of target `i`. -/
structure atomic_step where
  target : Option Nat
  call : atomic_call
  deriving DecidableEq, Repr

/-- The counter set after one atomic call on it. -/
def call_apply (c : atomic_call) (s : dmp_stats) : dmp_stats :=
  match c with
  | atomic_call.inc stat_field.read_reqs => { s with read_reqs := atomic64_inc s.read_reqs }
  | atomic_call.inc stat_field.write_reqs => { s with write_reqs := atomic64_inc s.write_reqs }
  | atomic_call.inc stat_field.read_bytes => { s with read_bytes := atomic64_inc s.read_bytes }
  | atomic_call.inc stat_field.write_bytes =>
    { s with write_bytes := atomic64_inc s.write_bytes }
  | atomic_call.add n stat_field.read_reqs => { s with read_reqs := atomic64_add n s.read_reqs }
  | atomic_call.add n stat_field.write_reqs =>
    { s with write_reqs := atomic64_add n s.write_reqs }
  | atomic_call.add n stat_field.read_bytes =>
    { s with read_bytes := atomic64_add n s.read_bytes }
  | atomic_call.add n stat_field.write_bytes =>
    { s with write_bytes := atomic64_add n s.write_bytes }

/-- The shared state after one atomic step; `none` when the step addresses the
counters of a target without context. -/
def atomic_apply (w : World) (a : atomic_step) : Option World :=
  match a.target with
  | none => some { w with global_stats := call_apply a.call w.global_stats }
  | some i =>
    match (w.targets i).priv with
    | none => none
    | some d =>
      some { w with
             targets := Function.update w.targets i
               { w.targets i with priv := some { d with stats := call_apply a.call d.stats } } }

/-- A sequence of atomic steps, in the order in which they take effect. -/
def atomic_run : World → List atomic_step → Option World
  | w, [] => some w
  | w, a :: l => (atomic_apply w a).bind fun w1 => atomic_run w1 l

/-- The four atomic calls of `dmp_update_stats(dmp, bio)` on target `i`, in
program order (lines 110 to 113 for a read, 115 to 118 for a write). -/
def update_steps (k : KernelOps) (i : Nat) (b : bio) : List atomic_step :=
  let bytes := b.bi_iter.bi_size % U32
  if k.bio_data_dir b = READ then
    [ { target := some i, call := atomic_call.inc stat_field.read_reqs },
      { target := some i, call := atomic_call.add bytes stat_field.read_bytes },
      { target := none, call := atomic_call.inc stat_field.read_reqs },
      { target := none, call := atomic_call.add bytes stat_field.read_bytes } ]
  else
    [ { target := some i, call := atomic_call.inc stat_field.write_reqs },
      { target := some i, call := atomic_call.add bytes stat_field.write_bytes },
      { target := none, call := atomic_call.inc stat_field.write_reqs },
      { target := none, call := atomic_call.add bytes stat_field.write_bytes } ]

/-- The atomic steps of one execution context that issues the requests `reqs`
(each with the target it is delivered to) one after the other. -/
def thread_steps (k : KernelOps) : List (Nat × bio) → List atomic_step
  | [] => []
  | r :: rs => update_steps k r.1 r.2 ++ thread_steps k rs

/-- The list `zs` is a shuffle of `xs` and `ys`: it holds the elements of
both, each list in its own order. -/
inductive Shuffle {α : Type} : List α → List α → List α → Prop where
  | nil : Shuffle [] [] []
  | left (x : α) {xs ys zs : List α} : Shuffle xs ys zs → Shuffle (x :: xs) ys (x :: zs)
  | right (y : α) {xs ys zs : List α} : Shuffle xs ys zs → Shuffle xs (y :: ys) (y :: zs)

/-- The list `l` is an interleaving of the threads `ts`: it holds the steps of
all of them, each thread in its own order. -/
inductive Interleave {α : Type} : List (List α) → List α → Prop where
  | nil : Interleave [] []
  | cons {t : List α} {ts : List (List α)} {l1 l : List α} :
      Interleave ts l1 → Shuffle t l1 l → Interleave (t :: ts) l

/-- The shuffle a scheduler produces: at each step `true` runs the next step
of the first list and `false` the next step of the second; when the schedule
or a list runs out the rest follows in order. -/
def merge_by {α : Type} : List Bool → List α → List α → List α
  | [], xs, ys => xs ++ ys
  | true :: _, [], ys => ys
  | true :: s, x :: xs, ys => x :: merge_by s xs ys
  | false :: _, xs, [] => xs
  | false :: s, xs, y :: ys => y :: merge_by s xs ys

/-- The amount an atomic call adds, placed in the field it addresses. -/
def call_adds (c : atomic_call) : dmp_stats :=
  match c with
  | atomic_call.inc stat_field.read_reqs =>
    { read_reqs := 1, write_reqs := 0, read_bytes := 0, write_bytes := 0 }
  | atomic_call.inc stat_field.write_reqs =>
    { read_reqs := 0, write_reqs := 1, read_bytes := 0, write_bytes := 0 }
  | atomic_call.inc stat_field.read_bytes =>
    { read_reqs := 0, write_reqs := 0, read_bytes := 1, write_bytes := 0 }
  | atomic_call.inc stat_field.write_bytes =>
    { read_reqs := 0, write_reqs := 0, read_bytes := 0, write_bytes := 1 }
  | atomic_call.add n stat_field.read_reqs =>
    { read_reqs := n, write_reqs := 0, read_bytes := 0, write_bytes := 0 }
  | atomic_call.add n stat_field.write_reqs =>
    { read_reqs := 0, write_reqs := n, read_bytes := 0, write_bytes := 0 }
  | atomic_call.add n stat_field.read_bytes =>
    { read_reqs := 0, write_reqs := 0, read_bytes := n, write_bytes := 0 }
  | atomic_call.add n stat_field.write_bytes =>
    { read_reqs := 0, write_reqs := 0, read_bytes := 0, write_bytes := n }

/-- The all-zero amounts. -/
def stats_zero : dmp_stats :=
  { read_reqs := 0, write_reqs := 0, read_bytes := 0, write_bytes := 0 }

/-- Exact total, field by field, of what the steps of `l` that address
`global_stats` add. -/
def global_adds : List atomic_step → dmp_stats
  | [] => stats_zero
  | a :: l =>
    match a.target with
    | none => stats_plus (call_adds a.call) (global_adds l)
    | some _ => global_adds l

/-- Exact total, field by field, of what the requests `reqs` add. -/
def reqs_adds (k : KernelOps) : List (Nat × bio) → dmp_stats
  | [] => stats_zero
  | r :: rs => stats_plus (request_adds k r.2) (reqs_adds k rs)

/-! ## Concrete environment used in the examples -/

/-- A device table with one device, `/dev/sda`; any other path fails with
`-ENODEV`. -/
def one_disk : String → Nat → Int × dm_dev :=
  fun path _ =>
    if path = "/dev/sda" then (0, { name := "/dev/sda", bdev := 7 })
    else (-19, { name := "", bdev := 0 })

/-- A target that has not been constructed yet, starting at sector `begin`
of the mapped device. -/
def blank_target (begin : Nat) : dm_target :=
  { begin := begin, table_mode := 3, priv := none, error := none,
    num_flush_bios := 0, num_discard_bios := 0 }

/-- The state in which every target has just been constructed on `/dev/sda`
and `global_stats` is `g`. -/
def all_constructed (g : dmp_stats) : World :=
  { global_stats := g,
    targets := fun _ =>
      (dmp_ctr (linux one_disk) true (blank_target 0) 1 (fun _ => "/dev/sda")).ti,
    lookups := [], held := [] }

/-- A state with traffic already counted (5 reads of 1000 bytes in all, 7
writes of 2000 bytes in all), target 0 not constructed and every other target
constructed on `/dev/sda`. -/
def busy_world : World :=
  { global_stats := { read_reqs := 5, write_reqs := 7, read_bytes := 1000,
                      write_bytes := 2000 },
    targets := fun j =>
      if j = 0 then blank_target 0
      else (dmp_ctr (linux one_disk) true (blank_target 0) 1 (fun _ => "/dev/sda")).ti,
    lookups := [], held := [] }

/-! ## Lemmas: report -/

theorem avg_guard (bytes count : Nat) :
    (if count ≠ 0 then div_u64 bytes count else some 0) = some (bytes / count) := by
  unfold div_u64
  by_cases h : count = 0
  · simp [h]
  · simp [h]

theorem volumes_locals_eq (g : dmp_stats) :
    volumes_locals g = some
      { read_reqs := atomic64_read g.read_reqs,
        avg_read_size := atomic64_read g.read_bytes / atomic64_read g.read_reqs,
        write_reqs := atomic64_read g.write_reqs,
        avg_write_size := atomic64_read g.write_bytes / atomic64_read g.write_reqs,
        total_reqs := (atomic64_read g.read_reqs + atomic64_read g.write_reqs) % U64,
        avg_total_size :=
          ((atomic64_read g.read_bytes + atomic64_read g.write_bytes) % U64) /
            ((atomic64_read g.read_reqs + atomic64_read g.write_reqs) % U64) } := by
  unfold volumes_locals
  simp only [avg_guard, Option.bind_some, Option.some_bind]

theorem sprintf_volumes (a1 a2 a3 a4 a5 a6 : Nat) :
    sprintf volumes_format.toList [a1, a2, a3, a4, a5, a6] =
      "read:\n".toList ++ report_line "  reqs: " a1 ++ report_line "  avg size: " a2 ++
      "write:\n".toList ++ report_line "  reqs: " a3 ++ report_line "  avg size: " a4 ++
      "total:\n".toList ++ report_line "  reqs: " a5 ++ report_line "  avg size: " a6 := by
  simp [volumes_format, sprintf, report_line]

theorem dec_char_toNat (d : Nat) : (dec_char d).toNat = 48 + d % 10 := by
  have h : d % 10 < 10 := Nat.mod_lt _ (by decide)
  unfold dec_char
  generalize d % 10 = r at h
  interval_cases r <;> decide

theorem dec_char_isDigit (d : Nat) : (dec_char d).isDigit = true := by
  have h : d % 10 < 10 := Nat.mod_lt _ (by decide)
  unfold dec_char
  generalize d % 10 = r at h
  interval_cases r <;> decide

theorem put_dec_append (fuel : Nat) : ∀ (n : Nat) (acc : List Char),
    put_dec fuel n acc = put_dec fuel n [] ++ acc := by
  induction fuel with
  | zero => intro n acc; simp [put_dec]
  | succ f ih =>
    intro n acc
    by_cases h : n / 10 = 0
    · simp [put_dec, h]
    · simp only [put_dec, h, if_false]
      rw [ih (n / 10) (dec_char n :: acc), ih (n / 10) [dec_char n]]
      simp

theorem put_dec_succ (f n : Nat) (h : n / 10 ≠ 0) :
    put_dec (f + 1) n [] = put_dec f (n / 10) [] ++ [dec_char n] := by
  simp only [put_dec, h, if_false]
  exact put_dec_append f (n / 10) [dec_char n]

theorem put_dec_digits (fuel : Nat) : ∀ (n : Nat),
    ∀ c ∈ put_dec fuel n [], c.isDigit = true := by
  induction fuel with
  | zero => intro n c hc; simp [put_dec] at hc
  | succ f ih =>
    intro n c hc
    by_cases h : n / 10 = 0
    · simp [put_dec, h] at hc
      rw [hc]; exact dec_char_isDigit n
    · rw [put_dec_succ f n h] at hc
      rcases List.mem_append.mp hc with h1 | h1
      · exact ih _ c h1
      · simp at h1
        rw [h1]; exact dec_char_isDigit n

theorem put_dec_ne_nil (f n : Nat) : put_dec (f + 1) n [] ≠ [] := by
  by_cases h : n / 10 = 0
  · simp [put_dec, h]
  · rw [put_dec_succ f n h]; simp

theorem dec_val_snoc (cs : List Char) (c : Char) :
    dec_val (cs ++ [c]) = 10 * dec_val cs + (c.toNat - 48) := by
  simp [dec_val, List.foldl_append]

theorem dec_val_put_dec (fuel : Nat) : ∀ n, n < 10 ^ fuel →
    dec_val (put_dec fuel n []) = n := by
  induction fuel with
  | zero => intro n hn; simp at hn; subst hn; simp [put_dec, dec_val]
  | succ f ih =>
    intro n hn
    by_cases h : n / 10 = 0
    · have h10 : n < 10 := by omega
      simp [put_dec, h, dec_val, dec_char_toNat]
      omega
    · rw [put_dec_succ f n h, dec_val_snoc, dec_char_toNat]
      have : n / 10 < 10 ^ f := by
        rw [pow_succ] at hn
        omega
      rw [ih _ this]
      omega

theorem fmt_llu_spec (n : Nat) :
    fmt_llu n ≠ [] ∧ (∀ c ∈ fmt_llu n, c.isDigit = true) ∧ dec_val (fmt_llu n) = n % U64 := by
  refine ⟨put_dec_ne_nil 19 _, put_dec_digits 20 _, dec_val_put_dec 20 _ ?_⟩
  have : n % U64 < U64 := Nat.mod_lt _ (by decide)
  have h2 : U64 < 10 ^ 20 := by decide
  omega

/-! ## Lemmas: constructor and map -/

theorem dmp_update_stats_dev (k : KernelOps) (g : dmp_stats) (dmp : dmp_c) (b : bio) :
    (dmp_update_stats k g dmp b).1.dev = dmp.dev ∧
    (dmp_update_stats k g dmp b).1.start = dmp.start := by
  unfold dmp_update_stats
  split <;> exact ⟨rfl, rfl⟩

theorem dmp_map_eq (k : KernelOps) (g : dmp_stats) (ti : dm_target) (dmp : dmp_c) (b : bio)
    (h : ti.priv = some dmp) :
    dmp_map k g ti b = some
      { ret := DM_MAPIO_REMAPPED,
        global_stats := (dmp_update_stats k g dmp b).2,
        ti := { ti with priv := some (dmp_update_stats k g dmp b).1 },
        bio :=
          if k.bio_sectors { b with bi_bdev := dmp.dev.bdev } ≠ 0 ∨
              k.bio_op { b with bi_bdev := dmp.dev.bdev } = REQ_OP_FLUSH then
            { bi_bdev := dmp.dev.bdev, bi_opf := b.bi_opf,
              bi_iter := { bi_sector := k.dm_target_offset ti b.bi_iter.bi_sector,
                           bi_size := b.bi_iter.bi_size } }
          else { b with bi_bdev := dmp.dev.bdev } } := by
  simp only [dmp_map, h, (dmp_update_stats_dev k g dmp b).1]

/-! ## Lemmas: statistics and the state machine -/

theorem update_stats_read (k : KernelOps) (g : dmp_stats) (dmp : dmp_c) (b : bio)
    (hr : k.bio_data_dir b = READ) :
    dmp_update_stats k g dmp b =
      ({ dmp with stats := { dmp.stats with
            read_reqs := (dmp.stats.read_reqs + 1) % U64,
            read_bytes := (dmp.stats.read_bytes + b.bi_iter.bi_size % U32) % U64 } },
       { g with read_reqs := (g.read_reqs + 1) % U64,
                read_bytes := (g.read_bytes + b.bi_iter.bi_size % U32) % U64 }) := by
  simp only [dmp_update_stats, hr, if_true, atomic64_inc, atomic64_add]

theorem update_stats_write (k : KernelOps) (g : dmp_stats) (dmp : dmp_c) (b : bio)
    (hr : k.bio_data_dir b ≠ READ) :
    dmp_update_stats k g dmp b =
      ({ dmp with stats := { dmp.stats with
            write_reqs := (dmp.stats.write_reqs + 1) % U64,
            write_bytes := (dmp.stats.write_bytes + b.bi_iter.bi_size % U32) % U64 } },
       { g with write_reqs := (g.write_reqs + 1) % U64,
                write_bytes := (g.write_bytes + b.bi_iter.bi_size % U32) % U64 }) := by
  simp only [dmp_update_stats, hr, if_false, atomic64_inc, atomic64_add]

theorem update_stats_sum (k : KernelOps) (c g : dmp_stats) (dmp : dmp_c) (b : bio)
    (h : g = stats_mod (stats_plus c dmp.stats)) :
    (dmp_update_stats k g dmp b).2 =
      stats_mod (stats_plus c (dmp_update_stats k g dmp b).1.stats) := by
  subst h
  by_cases hr : k.bio_data_dir b = READ
  · rw [update_stats_read k _ dmp b hr]
    simp only [stats_mod, stats_plus, dmp_stats.mk.injEq]
    refine ⟨?_, trivial, ?_, trivial⟩ <;> (unfold U64; omega)
  · rw [update_stats_write k _ dmp b hr]
    simp only [stats_mod, stats_plus, dmp_stats.mk.injEq]
    refine ⟨trivial, ?_, trivial, ?_⟩ <;> (unfold U64; omega)

theorem update_stats_wf (k : KernelOps) (g : dmp_stats) (dmp : dmp_c) (b : bio) :
    (stats_wf g → stats_wf (dmp_update_stats k g dmp b).2) ∧
    (stats_wf dmp.stats → stats_wf (dmp_update_stats k g dmp b).1.stats) := by
  have hU : ∀ x, x % U64 < U64 := fun x => Nat.mod_lt _ (by decide)
  by_cases hr : k.bio_data_dir b = READ
  · rw [update_stats_read k _ dmp b hr]
    exact ⟨fun h => ⟨hU _, h.2.1, hU _, h.2.2.2⟩, fun h => ⟨hU _, h.2.1, hU _, h.2.2.2⟩⟩
  · rw [update_stats_write k _ dmp b hr]
    exact ⟨fun h => ⟨h.1, hU _, h.2.2.1, hU _⟩, fun h => ⟨h.1, hU _, h.2.2.1, hU _⟩⟩

theorem update_stats_mono (k : KernelOps) (g : dmp_stats) (dmp : dmp_c) (b : bio) :
    stats_mono (request_adds k b) g (dmp_update_stats k g dmp b).2 ∧
    stats_mono (request_adds k b) dmp.stats (dmp_update_stats k g dmp b).1.stats ∧
    stats_wrap (request_adds k b) g (dmp_update_stats k g dmp b).2 ∧
    stats_wrap (request_adds k b) dmp.stats (dmp_update_stats k g dmp b).1.stats := by
  have h32 : b.bi_iter.bi_size % U32 < U32 := Nat.mod_lt _ (by decide)
  by_cases hr : k.bio_data_dir b = READ
  · rw [update_stats_read k _ dmp b hr]
    simp only [stats_mono, stats_wrap, request_adds, hr, if_true]
    refine ⟨⟨?_, ?_, ?_, ?_⟩, ⟨?_, ?_, ?_, ?_⟩, ⟨?_, ?_, ?_, ?_⟩, ⟨?_, ?_, ?_, ?_⟩⟩ <;>
    (intro h1 h2; unfold U64 U32 at *; omega)
  · rw [update_stats_write k _ dmp b hr]
    simp only [stats_mono, stats_wrap, request_adds, hr, if_false]
    refine ⟨⟨?_, ?_, ?_, ?_⟩, ⟨?_, ?_, ?_, ?_⟩, ⟨?_, ?_, ?_, ?_⟩, ⟨?_, ?_, ?_, ?_⟩⟩ <;>
    (intro h1 h2; unfold U64 U32 at *; omega)

theorem stats_mono_refl (a x : dmp_stats) : stats_mono a x x :=
  ⟨fun _ _ => le_refl _, fun _ _ => le_refl _, fun _ _ => le_refl _, fun _ _ => le_refl _⟩

theorem stats_wrap_zero (x y : dmp_stats) :
    stats_wrap { read_reqs := 0, write_reqs := 0, read_bytes := 0, write_bytes := 0 } x y := by
  simp only [stats_wrap, Nat.add_zero]
  refine ⟨?_, ?_, ?_, ?_⟩ <;> (intro h1 h2; omega)

theorem step_map_eq (k : KernelOps) (w : World) (i : Nat) (b : bio) (dmp : dmp_c)
    (h : (w.targets i).priv = some dmp) :
    step k w (Op.map i b) = some
      { w with
        global_stats := (dmp_update_stats k w.global_stats dmp b).2,
        targets := Function.update w.targets i
          { w.targets i with priv := some (dmp_update_stats k w.global_stats dmp b).1 } } := by
  simp only [step, dmp_map_eq k w.global_stats (w.targets i) dmp b h]

theorem run_append (k : KernelOps) (ops1 ops2 : List Op) : ∀ w : World,
    run k w (ops1 ++ ops2) = (run k w ops1).bind fun w1 => run k w1 ops2 := by
  induction ops1 with
  | nil => intro w; rfl
  | cons op ops ih =>
    intro w
    simp only [List.cons_append, run]
    cases step k w op with
    | none => rfl
    | some w1 => exact ih w1

theorem ctr_success (k : KernelOps) (alloc_ok : Bool) (ti : dm_target) (argc : Nat)
    (argv : Nat → String) (h : (dmp_ctr k alloc_ok ti argc argv).ret = 0) :
    (dmp_ctr k alloc_ok ti argc argv).ti =
      { ti with
        priv := some { dev := (k.dm_get_device (argv 0) ti.table_mode).2, start := 0,
                       stats := stats_init },
        num_flush_bios := 1, num_discard_bios := 1 } := by
  have hE : (-EINVAL : Int) ≠ 0 := by decide
  have hM : (-ENOMEM : Int) ≠ 0 := by decide
  by_cases h1 : argc = 1
  · cases alloc_ok with
    | false => simp [dmp_ctr, h1, hM] at h
    | true =>
      by_cases h3 : (k.dm_get_device (argv 0) ti.table_mode).1 = 0
      · simp [dmp_ctr, h1, h3]
      · simp [dmp_ctr, h1, h3] at h
  · simp [dmp_ctr, h1, hE] at h

theorem stats_init_wf : stats_wf stats_init := by
  unfold stats_wf stats_init atomic64_set
  decide

theorem run_reads (k : KernelOps) (i : Nat) : ∀ (bs : List bio) (w : World) (d : dmp_c),
    (w.targets i).priv = some d → stats_wf d.stats → stats_wf w.global_stats →
    (∀ b ∈ bs, k.bio_data_dir b = READ) →
    ∃ (w1 : World) (d1 : dmp_c), run k w (map_calls i bs) = some w1 ∧
      (w1.targets i).priv = some d1 ∧
      d1.stats = { d.stats with
        read_reqs := (d.stats.read_reqs + bs.length) % U64,
        read_bytes := (d.stats.read_bytes +
          (bs.map fun b => b.bi_iter.bi_size % U32).sum) % U64 } ∧
      w1.global_stats = { w.global_stats with
        read_reqs := (w.global_stats.read_reqs + bs.length) % U64,
        read_bytes := (w.global_stats.read_bytes +
          (bs.map fun b => b.bi_iter.bi_size % U32).sum) % U64 } ∧
      (∀ j, j ≠ i → w1.targets j = w.targets j) := by
  intro bs
  induction bs with
  | nil =>
    intro w d hd hwd hwg _
    refine ⟨w, d, rfl, hd, ?_, ?_, fun _ _ => rfl⟩
    · simp only [List.length_nil, List.map_nil, List.sum_nil, Nat.add_zero]
      rw [Nat.mod_eq_of_lt hwd.1, Nat.mod_eq_of_lt hwd.2.2.1]
    · simp only [List.length_nil, List.map_nil, List.sum_nil, Nat.add_zero]
      rw [Nat.mod_eq_of_lt hwg.1, Nat.mod_eq_of_lt hwg.2.2.1]
  | cons b bs ih =>
    intro w d hd hwd hwg hr
    have hb : k.bio_data_dir b = READ := hr b (List.mem_cons_self _ _)
    have hstep := step_map_eq k w i b d hd
    have hwf := update_stats_wf k w.global_stats d b
    obtain ⟨w1, d1, hrun, hp, hs, hg, hfr⟩ :=
      ih { w with
           global_stats := (dmp_update_stats k w.global_stats d b).2,
           targets := Function.update w.targets i
             { w.targets i with priv := some (dmp_update_stats k w.global_stats d b).1 } }
        (dmp_update_stats k w.global_stats d b).1
        (by simp only [Function.update_same]) (hwf.2 hwd) (hwf.1 hwg)
        (fun x hx => hr x (List.mem_cons_of_mem _ hx))
    refine ⟨w1, d1, ?_, hp, ?_, ?_, ?_⟩
    · simp only [map_calls, List.map_cons, run, hstep, Option.some_bind]
      exact hrun
    · rw [hs, update_stats_read k _ d b hb]
      simp only [List.length_cons, List.map_cons, List.sum_cons, dmp_stats.mk.injEq]
      refine ⟨?_, trivial, ?_, trivial⟩ <;> (unfold U64; omega)
    · rw [hg, update_stats_read k _ d b hb]
      simp only [List.length_cons, List.map_cons, List.sum_cons, dmp_stats.mk.injEq]
      refine ⟨?_, trivial, ?_, trivial⟩ <;> (unfold U64; omega)
    · intro j hj
      rw [hfr j hj]
      simp only [Function.update_noteq hj]

theorem sum_sizes_of_lt (bs : List bio) (h : ∀ b ∈ bs, b.bi_iter.bi_size < U32) :
    (bs.map fun b => b.bi_iter.bi_size % U32).sum = (bs.map fun b => b.bi_iter.bi_size).sum := by
  induction bs with
  | nil => rfl
  | cons b bs ih =>
    simp only [List.map_cons, List.sum_cons]
    rw [ih (fun x hx => h x (List.mem_cons_of_mem _ hx)),
      Nat.mod_eq_of_lt (h b (List.mem_cons_self _ _))]

theorem fresh_reads (k : KernelOps) (targets : Nat → dm_target) (i : Nat)
    (argv : Nat → String) (bs : List bio)
    (hc : (dmp_ctr k true (targets i) 1 argv).ret = 0)
    (hr : ∀ b ∈ bs, k.bio_data_dir b = READ)
    (hs : ∀ b ∈ bs, b.bi_iter.bi_size < U32) :
    ∃ (w : World) (d : dmp_c),
      run k (module_loaded targets) (Op.ctr i true 1 argv :: map_calls i bs) = some w ∧
      (w.targets i).priv = some d ∧
      d.stats = { read_reqs := bs.length % U64, write_reqs := 0,
                  read_bytes := (bs.map fun b => b.bi_iter.bi_size).sum % U64,
                  write_bytes := 0 } ∧
      w.global_stats = d.stats := by
  have hti := ctr_success k true (targets i) 1 argv hc
  obtain ⟨w1, d1, hrun, hp, hst, hg, -⟩ :=
    run_reads k i bs
      { module_loaded targets with
        targets := Function.update targets i (dmp_ctr k true (targets i) 1 argv).ti,
        lookups := [] ++ (dmp_ctr k true (targets i) 1 argv).lookups,
        held := match (dmp_ctr k true (targets i) 1 argv).held with
                | some d => d :: []
                | none => [] }
      { dev := (k.dm_get_device (argv 0) (targets i).table_mode).2, start := 0,
        stats := stats_init }
      (by simp only [Function.update_same, hti]) stats_init_wf stats_init_wf hr
  refine ⟨w1, d1, ?_, hp, ?_, ?_⟩
  · simp only [run, step, Option.some_bind]
    exact hrun
  · rw [hst, sum_sizes_of_lt bs hs]
    simp only [stats_init, atomic64_set, Nat.zero_mod, Nat.zero_add]
  · rw [hg, hst]
    simp only [module_loaded, dm_dmp_init, stats_init]
    rfl

theorem stats_plus_swap (c x y : dmp_stats) :
    stats_plus c (stats_plus x y) = stats_plus (stats_plus c y) x := by
  simp only [stats_plus, dmp_stats.mk.injEq]
  refine ⟨?_, ?_, ?_, ?_⟩ <;> omega

theorem stats_plus_assoc (c x y : dmp_stats) :
    stats_plus c (stats_plus x y) = stats_plus (stats_plus c x) y := by
  simp only [stats_plus, dmp_stats.mk.injEq]
  refine ⟨?_, ?_, ?_, ?_⟩ <;> omega

theorem run_one_sum (k : KernelOps) (i : Nat) (c : dmp_stats) :
    ∀ (bs : List bio) (w : World) (d : dmp_c),
    (w.targets i).priv = some d →
    w.global_stats = stats_mod (stats_plus c d.stats) →
    ∃ (w1 : World) (d1 : dmp_c), run k w (map_calls i bs) = some w1 ∧
      (w1.targets i).priv = some d1 ∧
      w1.global_stats = stats_mod (stats_plus c d1.stats) ∧
      (∀ j, j ≠ i → w1.targets j = w.targets j) := by
  intro bs
  induction bs with
  | nil => intro w d hd hg; exact ⟨w, d, rfl, hd, hg, fun _ _ => rfl⟩
  | cons b bs ih =>
    intro w d hd hg
    have hstep := step_map_eq k w i b d hd
    obtain ⟨w1, d1, hrun, hp, hg1, hfr⟩ :=
      ih { w with
           global_stats := (dmp_update_stats k w.global_stats d b).2,
           targets := Function.update w.targets i
             { w.targets i with priv := some (dmp_update_stats k w.global_stats d b).1 } }
        (dmp_update_stats k w.global_stats d b).1
        (by simp only [Function.update_same])
        (update_stats_sum k c w.global_stats d b hg)
    refine ⟨w1, d1, ?_, hp, hg1, ?_⟩
    · simp only [map_calls, List.map_cons, run, hstep, Option.some_bind]
      exact hrun
    · intro j hj
      rw [hfr j hj]
      simp only [Function.update_noteq hj]

theorem run_two_sum (k : KernelOps) (a b : Nat) (hab : a ≠ b) (c : dmp_stats) :
    ∀ (ms : List (Nat × bio)) (w : World) (da db : dmp_c),
    (w.targets a).priv = some da → (w.targets b).priv = some db →
    w.global_stats = stats_mod (stats_plus c (stats_plus da.stats db.stats)) →
    (∀ m ∈ ms, m.1 = a ∨ m.1 = b) →
    ∃ (w1 : World) (da1 db1 : dmp_c), run k w (routed_calls ms) = some w1 ∧
      (w1.targets a).priv = some da1 ∧ (w1.targets b).priv = some db1 ∧
      w1.global_stats = stats_mod (stats_plus c (stats_plus da1.stats db1.stats)) ∧
      (∀ j, j ≠ a → j ≠ b → w1.targets j = w.targets j) := by
  intro ms
  induction ms with
  | nil => intro w da db ha hb hg _; exact ⟨w, da, db, rfl, ha, hb, hg, fun _ _ _ => rfl⟩
  | cons m ms ih =>
    intro w da db ha hb hg hm
    have hms : ∀ x ∈ ms, x.1 = a ∨ x.1 = b := fun x hx => hm x (List.mem_cons_of_mem _ hx)
    rcases hm m (List.mem_cons_self _ _) with h1 | h1
    · have hstep := step_map_eq k w a m.2 da ha
      obtain ⟨w1, da1, db1, hrun, hpa, hpb, hg1, hfr⟩ :=
        ih { w with
             global_stats := (dmp_update_stats k w.global_stats da m.2).2,
             targets := Function.update w.targets a
               { w.targets a with priv := some (dmp_update_stats k w.global_stats da m.2).1 } }
          (dmp_update_stats k w.global_stats da m.2).1 db
          (by simp only [Function.update_same])
          (by simp only [Function.update_noteq (Ne.symm hab)]; exact hb)
          (by
            rw [stats_plus_swap]
            exact update_stats_sum k _ w.global_stats da m.2
              (by rw [hg, stats_plus_swap]))
          hms
      refine ⟨w1, da1, db1, ?_, hpa, hpb, hg1, ?_⟩
      · simp only [routed_calls, List.map_cons, run, h1, hstep, Option.some_bind]
        exact hrun
      · intro j hja hjb
        rw [hfr j hja hjb]
        simp only [Function.update_noteq hja]
    · have hstep := step_map_eq k w b m.2 db hb
      obtain ⟨w1, da1, db1, hrun, hpa, hpb, hg1, hfr⟩ :=
        ih { w with
             global_stats := (dmp_update_stats k w.global_stats db m.2).2,
             targets := Function.update w.targets b
               { w.targets b with priv := some (dmp_update_stats k w.global_stats db m.2).1 } }
          da (dmp_update_stats k w.global_stats db m.2).1
          (by simp only [Function.update_noteq hab]; exact ha)
          (by simp only [Function.update_same])
          (by
            rw [stats_plus_assoc]
            exact update_stats_sum k _ w.global_stats db m.2
              (by rw [hg, stats_plus_assoc]))
          hms
      refine ⟨w1, da1, db1, ?_, hpa, hpb, hg1, ?_⟩
      · simp only [routed_calls, List.map_cons, run, h1, hstep, Option.some_bind]
        exact hrun
      · intro j hja hjb
        rw [hfr j hja hjb]
        simp only [Function.update_noteq hjb]

theorem two_ctrs (k : KernelOps) (targets : Nat → dm_target) (a b : Nat)
    (argvA argvB : Nat → String) (hab : a ≠ b)
    (hca : (dmp_ctr k true (targets a) 1 argvA).ret = 0)
    (hcb : (dmp_ctr k true (targets b) 1 argvB).ret = 0) :
    ∃ (w : World) (da db : dmp_c),
      run k (module_loaded targets) [Op.ctr a true 1 argvA, Op.ctr b true 1 argvB] = some w ∧
      (w.targets a).priv = some da ∧ (w.targets b).priv = some db ∧
      da.stats = stats_init ∧ db.stats = stats_init ∧ w.global_stats = stats_init ∧
      (∀ j, j ≠ a → j ≠ b → w.targets j = targets j) := by
  have hta := ctr_success k true (targets a) 1 argvA hca
  have htb := ctr_success k true (targets b) 1 argvB hcb
  refine ⟨_, { dev := (k.dm_get_device (argvA 0) (targets a).table_mode).2, start := 0,
                stats := stats_init },
    { dev := (k.dm_get_device (argvB 0) (targets b).table_mode).2, start := 0,
      stats := stats_init }, rfl, ?_, ?_, rfl, rfl, rfl, ?_⟩
  · simp only [Function.update_noteq hab, Function.update_same, module_loaded, hta]
  · simp only [Function.update_noteq (Ne.symm hab), Function.update_same, module_loaded, htb]
  · intro j hja hjb
    simp only [Function.update_noteq hjb, Function.update_noteq hja, module_loaded]

theorem stats_init_sum :
    stats_init = stats_mod (stats_plus stats_init (stats_plus stats_init stats_init)) := by
  decide

theorem routed_replicate (i : Nat) (b : bio) (n : Nat) :
    routed_calls (List.replicate n (i, b)) = map_calls i (List.replicate n b) := by
  simp only [routed_calls, map_calls, List.map_replicate]

theorem stats_wf_set_reads (s : dmp_stats) (x y : Nat) (h : stats_wf s) :
    stats_wf { s with read_reqs := x % U64, read_bytes := y % U64 } :=
  ⟨Nat.mod_lt _ (by decide), h.2.1, Nat.mod_lt _ (by decide), h.2.2.2⟩

theorem step_dtr_eq (k : KernelOps) (w : World) (i : Nat) (d : dmp_c)
    (h : (w.targets i).priv = some d) :
    step k w (Op.dtr i) = some
      { w with
        targets := Function.update w.targets i { w.targets i with priv := none },
        held := w.held.erase d.dev } := by
  simp only [step, dmp_dtr, h]

theorem stats_plus_init (x : dmp_stats) : stats_plus stats_init x = x := by
  simp only [stats_plus, stats_init, atomic64_set, Nat.zero_mod, Nat.zero_add]

theorem run_cons (k : KernelOps) (w : World) (op : Op) (ops : List Op) :
    run k w (op :: ops) = (step k w op).bind fun w1 => run k w1 ops := rfl

/-! ## Lemmas: interleavings -/

theorem atomic_run_append (l1 l2 : List atomic_step) : ∀ w : World,
    atomic_run w (l1 ++ l2) = (atomic_run w l1).bind fun w1 => atomic_run w1 l2 := by
  induction l1 with
  | nil => intro w; rfl
  | cons a l ih =>
    intro w
    simp only [List.cons_append, atomic_run]
    cases atomic_apply w a with
    | none => rfl
    | some w1 => exact ih w1

theorem atomic_run_update_steps (k : KernelOps) (w : World) (i : Nat) (b : bio) :
    atomic_run w (update_steps k i b) = step k w (Op.map i b) := by
  cases hp : (w.targets i).priv with
  | none =>
    have h1 : step k w (Op.map i b) = none := by simp [step, dmp_map, hp]
    rw [h1]
    unfold update_steps
    split <;> simp [atomic_run, atomic_apply, hp]
  | some d =>
    rw [step_map_eq k w i b d hp]
    by_cases hr : k.bio_data_dir b = READ
    · rw [update_stats_read k _ d b hr]
      simp [update_steps, hr, atomic_run, atomic_apply, hp, call_apply, atomic64_inc,
        atomic64_add]
    · rw [update_stats_write k _ d b hr]
      simp [update_steps, hr, atomic_run, atomic_apply, hp, call_apply, atomic64_inc,
        atomic64_add]

theorem atomic_run_thread_steps (k : KernelOps) : ∀ (reqs : List (Nat × bio)) (w : World),
    atomic_run w (thread_steps k reqs) = run k w (routed_calls reqs) := by
  intro reqs
  induction reqs with
  | nil => intro w; rfl
  | cons r rs ih =>
    intro w
    simp only [thread_steps, routed_calls, List.map_cons, run_cons]
    rw [atomic_run_append, atomic_run_update_steps]
    cases step k w (Op.map r.1 r.2) with
    | none => rfl
    | some w1 => exact ih w1

theorem stats_mod_wf (x : dmp_stats) : stats_wf (stats_mod x) :=
  ⟨Nat.mod_lt _ (by decide), Nat.mod_lt _ (by decide), Nat.mod_lt _ (by decide),
    Nat.mod_lt _ (by decide)⟩

theorem stats_mod_plus_mod (x y : dmp_stats) :
    stats_mod (stats_plus (stats_mod x) y) = stats_mod (stats_plus x y) := by
  simp only [stats_mod, stats_plus, dmp_stats.mk.injEq]
  refine ⟨?_, ?_, ?_, ?_⟩ <;> (unfold U64; omega)

theorem stats_plus_zero (x : dmp_stats) : stats_plus x stats_zero = x := by
  simp only [stats_plus, stats_zero, Nat.add_zero]

theorem stats_mod_of_wf (x : dmp_stats) (h : stats_wf x) : stats_mod x = x := by
  simp only [stats_mod, Nat.mod_eq_of_lt h.1, Nat.mod_eq_of_lt h.2.1,
    Nat.mod_eq_of_lt h.2.2.1, Nat.mod_eq_of_lt h.2.2.2]

theorem call_apply_eq (c : atomic_call) (s : dmp_stats) (h : stats_wf s) :
    call_apply c s = stats_mod (stats_plus s (call_adds c)) := by
  obtain ⟨h1, h2, h3, h4⟩ := h
  cases c with
  | inc f =>
    cases f <;>
    simp only [call_apply, call_adds, stats_mod, stats_plus, atomic64_inc, Nat.add_zero,
      Nat.mod_eq_of_lt h1, Nat.mod_eq_of_lt h2, Nat.mod_eq_of_lt h3, Nat.mod_eq_of_lt h4]
  | add n f =>
    cases f <;>
    simp only [call_apply, call_adds, stats_mod, stats_plus, atomic64_add, Nat.add_zero,
      Nat.mod_eq_of_lt h1, Nat.mod_eq_of_lt h2, Nat.mod_eq_of_lt h3, Nat.mod_eq_of_lt h4]

theorem atomic_run_global : ∀ (l : List atomic_step) (w : World),
    stats_wf w.global_stats →
    (∀ a ∈ l, ∀ i, a.target = some i → (w.targets i).priv ≠ none) →
    ∃ w1 : World, atomic_run w l = some w1 ∧
      w1.global_stats = stats_mod (stats_plus w.global_stats (global_adds l)) := by
  intro l
  induction l with
  | nil =>
    intro w hwf _
    refine ⟨w, rfl, ?_⟩
    simp only [global_adds, stats_plus_zero]
    exact (stats_mod_of_wf _ hwf).symm
  | cons a l ih =>
    intro w hwf hlive
    cases ht : a.target with
    | none =>
      obtain ⟨w1, hrun, hg⟩ :=
        ih { w with global_stats := call_apply a.call w.global_stats }
          (by
            show stats_wf (call_apply a.call w.global_stats)
            rw [call_apply_eq _ _ hwf]
            exact stats_mod_wf _)
          (fun x hx i hi => hlive x (List.mem_cons_of_mem _ hx) i hi)
      refine ⟨w1, ?_, ?_⟩
      · simp only [atomic_run, atomic_apply, ht, Option.some_bind]
        exact hrun
      · rw [hg]
        simp only [global_adds, ht]
        rw [call_apply_eq _ _ hwf, stats_mod_plus_mod, stats_plus_assoc]
    | some i =>
      have hl := hlive a (List.mem_cons_self _ _) i ht
      cases hp : (w.targets i).priv with
      | none => exact absurd hp hl
      | some d =>
        obtain ⟨w1, hrun, hg⟩ :=
          ih { w with
               targets := Function.update w.targets i
                 { w.targets i with
                   priv := some { d with stats := call_apply a.call d.stats } } }
            hwf
            (fun x hx j hj => by
              by_cases hji : j = i
              · subst hji
                simp only [Function.update_same]
                exact fun e => Option.noConfusion e
              · simp only [Function.update_noteq hji]
                exact hlive x (List.mem_cons_of_mem _ hx) j hj)
        refine ⟨w1, ?_, ?_⟩
        · simp only [atomic_run, atomic_apply, ht, hp, Option.some_bind]
          exact hrun
        · rw [hg]
          simp only [global_adds, ht]

theorem stats_plus_comm4 (a b c : dmp_stats) :
    stats_plus a (stats_plus b c) = stats_plus b (stats_plus a c) := by
  simp only [stats_plus, dmp_stats.mk.injEq]
  refine ⟨?_, ?_, ?_, ?_⟩ <;> omega

theorem stats_zero_plus (x : dmp_stats) : stats_plus stats_zero x = x := by
  simp only [stats_plus, stats_zero, Nat.zero_add]

theorem global_adds_shuffle {xs ys zs : List atomic_step} (h : Shuffle xs ys zs) :
    global_adds zs = stats_plus (global_adds xs) (global_adds ys) := by
  induction h with
  | nil => simp only [global_adds, stats_plus_zero]
  | left x _ ih =>
    cases ht : x.target with
    | none => simp only [global_adds, ht, ih, stats_plus_assoc]
    | some i => simp only [global_adds, ht, ih]
  | right y _ ih =>
    cases ht : y.target with
    | none => simp only [global_adds, ht, ih, stats_plus_comm4]
    | some i => simp only [global_adds, ht, ih]

theorem shuffle_append {α : Type} (xs ys : List α) : Shuffle xs ys (xs ++ ys) := by
  induction xs with
  | nil =>
    induction ys with
    | nil => exact Shuffle.nil
    | cons y ys ih => exact Shuffle.right y ih
  | cons x xs ih => exact Shuffle.left x ih

theorem shuffle_merge_by {α : Type} : ∀ (s : List Bool) (xs ys : List α),
    Shuffle xs ys (merge_by s xs ys) := by
  intro s
  induction s with
  | nil => intro xs ys; exact shuffle_append xs ys
  | cons c s ih =>
    intro xs ys
    cases c with
    | true =>
      cases xs with
      | nil => simpa [merge_by] using shuffle_append ([] : List α) ys
      | cons x xs => simpa [merge_by] using Shuffle.left x (ih xs ys)
    | false =>
      cases ys with
      | nil => simpa [merge_by] using shuffle_append xs ([] : List α)
      | cons y ys => simpa [merge_by] using Shuffle.right y (ih xs ys)

theorem shuffle_mem {α : Type} {xs ys zs : List α} (h : Shuffle xs ys zs) :
    ∀ z ∈ zs, z ∈ xs ∨ z ∈ ys := by
  induction h with
  | nil => intro z hz; exact absurd hz (List.not_mem_nil z)
  | left x _ ih =>
    intro z hz
    rcases List.mem_cons.mp hz with h1 | h1
    · exact Or.inl (by rw [h1]; exact List.mem_cons_self _ _)
    · rcases ih z h1 with h2 | h2
      · exact Or.inl (List.mem_cons_of_mem _ h2)
      · exact Or.inr h2
  | right y _ ih =>
    intro z hz
    rcases List.mem_cons.mp hz with h1 | h1
    · exact Or.inr (by rw [h1]; exact List.mem_cons_self _ _)
    · rcases ih z h1 with h2 | h2
      · exact Or.inl h2
      · exact Or.inr (List.mem_cons_of_mem _ h2)

theorem interleave_mem {α : Type} {ts : List (List α)} {l : List α} (h : Interleave ts l) :
    ∀ z ∈ l, ∃ t ∈ ts, z ∈ t := by
  induction h with
  | nil => intro z hz; exact absurd hz (List.not_mem_nil z)
  | cons _ hs ih =>
    intro z hz
    rcases shuffle_mem hs z hz with h1 | h1
    · exact ⟨_, List.mem_cons_self _ _, h1⟩
    · obtain ⟨t, ht, hzt⟩ := ih z h1
      exact ⟨t, List.mem_cons_of_mem _ ht, hzt⟩

theorem interleave_flatten {α : Type} : ∀ ts : List (List α), Interleave ts ts.flatten := by
  intro ts
  induction ts with
  | nil => exact Interleave.nil
  | cons t ts ih => exact Interleave.cons ih (shuffle_append t ts.flatten)

theorem global_adds_interleave {ts : List (List atomic_step)} {l : List atomic_step}
    (h : Interleave ts l) : global_adds l = global_adds ts.flatten := by
  induction h with
  | nil => rfl
  | cons _ hs ih =>
    rw [global_adds_shuffle hs, ih, List.flatten_cons]
    exact (global_adds_shuffle (shuffle_append _ _)).symm

theorem global_adds_update_steps (k : KernelOps) (i : Nat) (b : bio) :
    global_adds (update_steps k i b) = request_adds k b := by
  by_cases hr : k.bio_data_dir b = READ
  · simp [update_steps, request_adds, hr, global_adds, call_adds, stats_plus, stats_zero]
  · simp [update_steps, request_adds, hr, global_adds, call_adds, stats_plus, stats_zero]

theorem global_adds_thread_steps (k : KernelOps) : ∀ reqs : List (Nat × bio),
    global_adds (thread_steps k reqs) = reqs_adds k reqs := by
  intro reqs
  induction reqs with
  | nil => rfl
  | cons r rs ih =>
    simp only [thread_steps, reqs_adds]
    rw [global_adds_shuffle (shuffle_append _ _), global_adds_update_steps, ih]

theorem thread_steps_append (k : KernelOps) (xs ys : List (Nat × bio)) :
    thread_steps k (xs ++ ys) = thread_steps k xs ++ thread_steps k ys := by
  induction xs with
  | nil => rfl
  | cons r rs ih =>
    show update_steps k r.1 r.2 ++ thread_steps k (rs ++ ys) =
      update_steps k r.1 r.2 ++ thread_steps k rs ++ thread_steps k ys
    rw [ih, List.append_assoc]

theorem thread_steps_flatten (k : KernelOps) : ∀ ts : List (List (Nat × bio)),
    thread_steps k ts.flatten = (ts.map (thread_steps k)).flatten := by
  intro ts
  induction ts with
  | nil => rfl
  | cons t ts ih =>
    simp only [List.flatten_cons, List.map_cons, thread_steps_append, ih]

theorem thread_steps_target (k : KernelOps) : ∀ (reqs : List (Nat × bio)) (a : atomic_step),
    a ∈ thread_steps k reqs → ∀ i, a.target = some i → ∃ r ∈ reqs, r.1 = i := by
  intro reqs
  induction reqs with
  | nil => intro a ha; exact absurd ha (List.not_mem_nil a)
  | cons r rs ih =>
    intro a ha i hi
    simp only [thread_steps] at ha
    rcases List.mem_append.mp ha with h1 | h1
    · refine ⟨r, List.mem_cons_self _ _, ?_⟩
      unfold update_steps at h1
      split at h1 <;>
      · simp only [List.mem_cons, List.mem_singleton, List.not_mem_nil, or_false] at h1
        rcases h1 with h | h | h | h <;> (rw [h] at hi; simp at hi) <;> exact hi
    · obtain ⟨x, hx, hxi⟩ := ih a h1 i hi
      exact ⟨x, List.mem_cons_of_mem _ hx, hxi⟩

theorem reqs_adds_totals (k : KernelOps) : ∀ reqs : List (Nat × bio),
    (reqs_adds k reqs).read_reqs + (reqs_adds k reqs).write_reqs = reqs.length ∧
    (reqs_adds k reqs).read_bytes + (reqs_adds k reqs).write_bytes =
      (reqs.map fun r => r.2.bi_iter.bi_size % U32).sum := by
  intro reqs
  induction reqs with
  | nil => exact ⟨rfl, rfl⟩
  | cons r rs ih =>
    obtain ⟨h1, h2⟩ := ih
    by_cases hr : k.bio_data_dir r.2 = READ
    · simp only [reqs_adds, request_adds, hr, if_true, stats_plus, List.length_cons,
        List.map_cons, List.sum_cons]
      constructor <;> omega
    · simp only [reqs_adds, request_adds, hr, if_false, stats_plus, List.length_cons,
        List.map_cons, List.sum_cons]
      constructor <;> omega

theorem length_flatten_const {α : Type} (M : Nat) : ∀ ts : List (List α),
    (∀ t ∈ ts, t.length = M) → ts.flatten.length = ts.length * M := by
  intro ts
  induction ts with
  | nil => intro _; simp
  | cons t ts ih =>
    intro h
    simp only [List.flatten_cons, List.length_append, List.length_cons]
    rw [ih (fun x hx => h x (List.mem_cons_of_mem _ hx)), h t (List.mem_cons_self _ _)]
    rw [Nat.add_mul, Nat.one_mul, Nat.add_comm]

theorem sum_mod_sizes (reqs : List (Nat × bio))
    (h : ∀ r ∈ reqs, r.2.bi_iter.bi_size < U32) :
    (reqs.map fun r => r.2.bi_iter.bi_size % U32).sum =
      (reqs.map fun r => r.2.bi_iter.bi_size).sum := by
  induction reqs with
  | nil => rfl
  | cons r rs ih =>
    simp only [List.map_cons, List.sum_cons]
    rw [ih (fun x hx => h x (List.mem_cons_of_mem _ hx)),
      Nat.mod_eq_of_lt (h r (List.mem_cons_self _ _))]

theorem interleaved_totals (k : KernelOps) (w : World) (ts : List (List (Nat × bio)))
    (l : List atomic_step)
    (hg : w.global_stats = stats_init)
    (hlive : ∀ t ∈ ts, ∀ r ∈ t, (w.targets r.1).priv ≠ none)
    (hl : Interleave (ts.map (thread_steps k)) l) :
    ∃ w1 ws : World, atomic_run w l = some w1 ∧
      run k w (routed_calls ts.flatten) = some ws ∧
      w1.global_stats = ws.global_stats ∧
      w1.global_stats = stats_mod (reqs_adds k ts.flatten) := by
  have hwf : stats_wf w.global_stats := by rw [hg]; exact stats_init_wf
  have hlive1 : ∀ a ∈ l, ∀ i, a.target = some i → (w.targets i).priv ≠ none := by
    intro a ha i hi
    obtain ⟨t, ht, hat⟩ := interleave_mem hl a ha
    obtain ⟨reqs, hreqs, rfl⟩ := List.mem_map.mp ht
    obtain ⟨r, hr, hri⟩ := thread_steps_target k reqs a hat i hi
    rw [← hri]
    exact hlive reqs hreqs r hr
  have hlive2 : ∀ a ∈ thread_steps k ts.flatten, ∀ i, a.target = some i →
      (w.targets i).priv ≠ none := by
    intro a ha i hi
    obtain ⟨r, hr, hri⟩ := thread_steps_target k ts.flatten a ha i hi
    obtain ⟨t, ht, hrt⟩ := List.mem_flatten.mp hr
    rw [← hri]
    exact hlive t ht r hrt
  obtain ⟨w1, hrun1, hg1⟩ := atomic_run_global l w hwf hlive1
  obtain ⟨ws, hrun2, hg2⟩ := atomic_run_global (thread_steps k ts.flatten) w hwf hlive2
  have hadds : global_adds l = reqs_adds k ts.flatten := by
    rw [global_adds_interleave hl, ← thread_steps_flatten, global_adds_thread_steps]
  refine ⟨w1, ws, hrun1, ?_, ?_, ?_⟩
  · rw [← atomic_run_thread_steps]
    exact hrun2
  · rw [hg1, hg2, hadds, global_adds_thread_steps]
  · rw [hg1, hadds, hg, stats_plus_init]

theorem shuffle_nil_right {α : Type} (xs : List α) : Shuffle xs [] xs := by
  induction xs with
  | nil => exact Shuffle.nil
  | cons x xs ih => exact Shuffle.left x ih

theorem all_constructed_live (g : dmp_stats) (i : Nat) :
    ((all_constructed g).targets i).priv ≠ none := by
  show (dmp_ctr (linux one_disk) true (blank_target 0) 1 (fun _ => "/dev/sda")).ti.priv ≠ none
  decide

theorem reqs_adds_reads (k : KernelOps) : ∀ reqs : List (Nat × bio),
    (∀ r ∈ reqs, k.bio_data_dir r.2 = READ) →
    reqs_adds k reqs =
      { read_reqs := reqs.length, write_reqs := 0,
        read_bytes := (reqs.map fun r => r.2.bi_iter.bi_size % U32).sum, write_bytes := 0 } := by
  intro reqs
  induction reqs with
  | nil => intro _; rfl
  | cons r rs ih =>
    intro h
    have hr := h r (List.mem_cons_self _ _)
    rw [reqs_adds, ih (fun x hx => h x (List.mem_cons_of_mem _ hx))]
    simp only [request_adds, hr, if_true, stats_plus, List.length_cons, List.map_cons,
      List.sum_cons, dmp_stats.mk.injEq, Nat.add_zero, and_true, true_and]
    omega

/-! ## The claims -/

/-- C1 (as amended): after a successful `dmp_ctr` on a freshly loaded module
and any sequence of N read requests with byte lengths b1..bN (each below 2^32,
the range of `bi_size`) on that instance, the instance's `read_reqs` is
N mod 2^64 and its `read_bytes` is the sum of the b_i mod 2^64, and
`global_stats` holds the same two values (so N and the sum themselves whenever
they are below 2^64); the write counters are zero. -/
theorem C1_reads_counted (k : KernelOps) (targets : Nat → dm_target) (i : Nat)
    (argv : Nat → String) (bs : List bio)
    (hc : (dmp_ctr k true (targets i) 1 argv).ret = 0)
    (hr : ∀ b ∈ bs, k.bio_data_dir b = READ)
    (hs : ∀ b ∈ bs, b.bi_iter.bi_size < U32) :
    ∃ (w : World) (d : dmp_c),
      run k (module_loaded targets) (Op.ctr i true 1 argv :: map_calls i bs) = some w ∧
      (w.targets i).priv = some d ∧
      d.stats.read_reqs = bs.length % U64 ∧
      d.stats.read_bytes = (bs.map fun b => b.bi_iter.bi_size).sum % U64 ∧
      w.global_stats.read_reqs = bs.length % U64 ∧
      w.global_stats.read_bytes = (bs.map fun b => b.bi_iter.bi_size).sum % U64 ∧
      d.stats.write_reqs = 0 ∧ d.stats.write_bytes = 0 ∧
      w.global_stats.write_reqs = 0 ∧ w.global_stats.write_bytes = 0 ∧
      (bs.length < U64 → (bs.map fun b => b.bi_iter.bi_size).sum < U64 →
        d.stats.read_reqs = bs.length ∧
        d.stats.read_bytes = (bs.map fun b => b.bi_iter.bi_size).sum ∧
        w.global_stats.read_reqs = bs.length ∧
        w.global_stats.read_bytes = (bs.map fun b => b.bi_iter.bi_size).sum) := by
  obtain ⟨w, d, hrun, hp, hst, hg⟩ := fresh_reads k targets i argv bs hc hr hs
  refine ⟨w, d, hrun, hp, ?_⟩
  rw [hg, hst]
  refine ⟨rfl, rfl, rfl, rfl, rfl, rfl, rfl, rfl, ?_⟩
  intro h1 h2
  simp only [Nat.mod_eq_of_lt h1, Nat.mod_eq_of_lt h2, and_self]

/-- C1 at a concrete run: three reads of 4096, 512 and 1024 bytes give a
count of 3 and 5632 bytes, locally and globally. -/
theorem C1_reads_counted_witness :
    ∃ (w : World) (d : dmp_c),
      run (linux one_disk) (module_loaded fun _ => blank_target 0)
        (Op.ctr 0 true 1 (fun _ => "/dev/sda") ::
          map_calls 0 [read_bio 0 4096, read_bio 8 512, read_bio 16 1024]) = some w ∧
      (w.targets 0).priv = some d ∧
      d.stats.read_reqs = 3 ∧ d.stats.read_bytes = 5632 ∧
      w.global_stats.read_reqs = 3 ∧ w.global_stats.read_bytes = 5632 := by
  obtain ⟨w, d, hrun, hp, -, -, -, -, -, -, -, -, hx⟩ :=
    C1_reads_counted (linux one_disk) (fun _ => blank_target 0) 0 (fun _ => "/dev/sda")
      [read_bio 0 4096, read_bio 8 512, read_bio 16 1024]
      (by decide) (by decide) (by decide)
  obtain ⟨h1, h2, h3, h4⟩ := hx (by decide) (by decide)
  exact ⟨w, d, hrun, hp, h1, h2, h3, h4⟩

/-- C1, the claim as stated fails: after 2^32 + 2 reads of 2^32 - 1 bytes each
on a fresh instance, `read_bytes` (local and global) is 2^32 - 2, not the sum
of the lengths, which is 2^64 + 2^32 - 2. -/
theorem C1_counterexample :
    ((List.replicate (2 ^ 32 + 2) (read_bio 0 (2 ^ 32 - 1))).map
        fun b => b.bi_iter.bi_size).sum = 2 ^ 64 + 2 ^ 32 - 2 ∧
    (run (linux one_disk) (module_loaded fun _ => blank_target 0)
        (Op.ctr 0 true 1 (fun _ => "/dev/sda") ::
          map_calls 0 (List.replicate (2 ^ 32 + 2) (read_bio 0 (2 ^ 32 - 1))))).map
      (fun w => (w.global_stats.read_bytes,
                 (w.targets 0).priv.map fun d => d.stats.read_bytes))
      = some (2 ^ 32 - 2, some (2 ^ 32 - 2)) ∧
    (2 ^ 32 - 2 : Nat) ≠ 2 ^ 64 + 2 ^ 32 - 2 := by
  have hsum : ((List.replicate (2 ^ 32 + 2) (read_bio 0 (2 ^ 32 - 1))).map
      fun b => b.bi_iter.bi_size).sum = 2 ^ 64 + 2 ^ 32 - 2 := by
    rw [List.map_replicate, List.sum_replicate, smul_eq_mul]
    decide
  refine ⟨hsum, ?_, by decide⟩
  obtain ⟨w, d, hrun, hp, hst, hg⟩ :=
    fresh_reads (linux one_disk) (fun _ => blank_target 0) 0 (fun _ => "/dev/sda")
      (List.replicate (2 ^ 32 + 2) (read_bio 0 (2 ^ 32 - 1)))
      (by decide)
      (fun b hb => by rw [List.eq_of_mem_replicate hb]; decide)
      (fun b hb => by rw [List.eq_of_mem_replicate hb]; decide)
  rw [hrun]
  simp only [Option.map_some', hp, hg, hst, hsum]
  decide

/-- C2 (as amended): on a constructed target `dmp_map` returns
`DM_MAPIO_REMAPPED`, points the request at the underlying device and leaves
its length and flags alone.  When the request has a non-zero sector count
(byte length shifted right by 9) or its operation is `REQ_OP_FLUSH`, the new
sector is `dm_target_offset(ti, sector)`, that is sector minus `ti->begin`
on 64 bits (so exactly sector - begin when begin ≤ sector); the `start`
field of the context is not added.  Otherwise the sector is unchanged; in
particular for every zero-length request whose operation is not
`REQ_OP_FLUSH`. -/
theorem C2_map_sector (get : String → Nat → Int × dm_dev) (g : dmp_stats) (ti : dm_target)
    (dmp : dmp_c) (b : bio) (h : ti.priv = some dmp) :
    ∃ r : map_result, dmp_map (linux get) g ti b = some r ∧
      r.ret = DM_MAPIO_REMAPPED ∧
      r.bio.bi_bdev = dmp.dev.bdev ∧
      r.bio.bi_opf = b.bi_opf ∧
      r.bio.bi_iter.bi_size = b.bi_iter.bi_size ∧
      r.bio.bi_iter.bi_sector =
        (if (b.bi_iter.bi_size % U32) / 512 ≠ 0 ∨ b.bi_opf % 256 = REQ_OP_FLUSH
          then (b.bi_iter.bi_sector % U64 + U64 - ti.begin % U64) % U64
          else b.bi_iter.bi_sector) ∧
      (((b.bi_iter.bi_size % U32) / 512 ≠ 0 ∨ b.bi_opf % 256 = REQ_OP_FLUSH) →
        ti.begin ≤ b.bi_iter.bi_sector → b.bi_iter.bi_sector < U64 →
        r.bio.bi_iter.bi_sector = b.bi_iter.bi_sector - ti.begin) ∧
      (b.bi_iter.bi_size = 0 → b.bi_opf % 256 ≠ REQ_OP_FLUSH →
        r.bio.bi_iter.bi_sector = b.bi_iter.bi_sector) := by
  have hU : 0 < U64 := by decide
  refine ⟨_, dmp_map_eq (linux get) g ti dmp b h, rfl, ?_⟩
  by_cases hc : (b.bi_iter.bi_size % U32) / 512 ≠ 0 ∨ b.bi_opf % 256 = REQ_OP_FLUSH
  · have hsec : (if (linux get).bio_sectors { b with bi_bdev := dmp.dev.bdev } ≠ 0 ∨
          (linux get).bio_op { b with bi_bdev := dmp.dev.bdev } = REQ_OP_FLUSH then
            ({ bi_bdev := dmp.dev.bdev, bi_opf := b.bi_opf,
               bi_iter := { bi_sector := (linux get).dm_target_offset ti b.bi_iter.bi_sector,
                            bi_size := b.bi_iter.bi_size } } : bio)
          else { b with bi_bdev := dmp.dev.bdev }) =
        { bi_bdev := dmp.dev.bdev, bi_opf := b.bi_opf,
          bi_iter := { bi_sector := (b.bi_iter.bi_sector % U64 + U64 - ti.begin % U64) % U64,
                       bi_size := b.bi_iter.bi_size } } := if_pos hc
    simp only [hsec]
    refine ⟨trivial, trivial, trivial, (if_pos hc).symm, ?_, ?_⟩
    · intro _ hle hlt
      have h1 : b.bi_iter.bi_sector % U64 = b.bi_iter.bi_sector := Nat.mod_eq_of_lt hlt
      have h2 : ti.begin % U64 = ti.begin := Nat.mod_eq_of_lt (lt_of_le_of_lt hle hlt)
      simp only [h1, h2]
      have h3 : b.bi_iter.bi_sector + U64 - ti.begin = (b.bi_iter.bi_sector - ti.begin) + U64 := by
        omega
      rw [h3, Nat.add_mod_right]
      exact Nat.mod_eq_of_lt (by omega)
    · intro hz hf
      exfalso
      rcases hc with hc | hc
      · rw [hz] at hc; exact hc (by decide)
      · exact hf hc
  · have hsec : (if (linux get).bio_sectors { b with bi_bdev := dmp.dev.bdev } ≠ 0 ∨
          (linux get).bio_op { b with bi_bdev := dmp.dev.bdev } = REQ_OP_FLUSH then
            ({ bi_bdev := dmp.dev.bdev, bi_opf := b.bi_opf,
               bi_iter := { bi_sector := (linux get).dm_target_offset ti b.bi_iter.bi_sector,
                            bi_size := b.bi_iter.bi_size } } : bio)
          else { b with bi_bdev := dmp.dev.bdev }) =
        { b with bi_bdev := dmp.dev.bdev } := if_neg hc
    simp only [hsec]
    refine ⟨trivial, trivial, trivial, (if_neg hc).symm, ?_, ?_⟩
    · intro hc2; exact absurd hc2 hc
    · intro _ _; trivial

/-- C2 at a concrete call: a 4096-byte read at sector 108 of a target that
begins at sector 100 is forwarded at sector 8, and a zero-length write at
sector 108 keeps its sector. -/
theorem C2_map_sector_witness :
    (dmp_map (linux one_disk) stats_init
        (dmp_ctr (linux one_disk) true (blank_target 100) 1 (fun _ => "/dev/sda")).ti
        { bi_bdev := 1, bi_opf := 0, bi_iter := { bi_sector := 108, bi_size := 4096 } }).map
      (fun r => r.bio.bi_iter.bi_sector) = some 8 ∧
    (dmp_map (linux one_disk) stats_init
        (dmp_ctr (linux one_disk) true (blank_target 100) 1 (fun _ => "/dev/sda")).ti
        { bi_bdev := 1, bi_opf := 1, bi_iter := { bi_sector := 108, bi_size := 0 } }).map
      (fun r => r.bio.bi_iter.bi_sector) = some 108 := by
  constructor
  · obtain ⟨r, hr, -, -, -, -, -, hs, -⟩ :=
      C2_map_sector one_disk stats_init
        (dmp_ctr (linux one_disk) true (blank_target 100) 1 (fun _ => "/dev/sda")).ti
        { dev := { name := "/dev/sda", bdev := 7 }, start := 0, stats := stats_init }
        { bi_bdev := 1, bi_opf := 0, bi_iter := { bi_sector := 108, bi_size := 4096 } }
        (by decide)
    rw [hr]
    simp only [Option.map_some']
    rw [hs (by decide) (by decide) (by decide)]
    decide
  · obtain ⟨r, hr, -, -, -, -, -, -, hz⟩ :=
      C2_map_sector one_disk stats_init
        (dmp_ctr (linux one_disk) true (blank_target 100) 1 (fun _ => "/dev/sda")).ti
        { dev := { name := "/dev/sda", bdev := 7 }, start := 0, stats := stats_init }
        { bi_bdev := 1, bi_opf := 1, bi_iter := { bi_sector := 108, bi_size := 0 } }
        (by decide)
    rw [hr]
    simp only [Option.map_some']
    rw [hz (by decide) (by decide)]

/-- C2, the claim as stated fails: on a freshly constructed instance (offset
`start = 0`) whose target begins at sector 8 of the mapped device, a
4096-byte read at sector 8 is forwarded at sector 0, not at 8 + 0. -/
theorem C2_counterexample :
    ((dmp_ctr (linux one_disk) true (blank_target 8) 1 (fun _ => "/dev/sda")).ti.priv.map
      (fun d => d.start) = some 0) ∧
    ((dmp_map (linux one_disk) stats_init
        (dmp_ctr (linux one_disk) true (blank_target 8) 1 (fun _ => "/dev/sda")).ti
        { bi_bdev := 1, bi_opf := 0, bi_iter := { bi_sector := 8, bi_size := 4096 } }).map
      (fun r => r.bio.bi_iter.bi_sector) = some 0) ∧
    ¬ ((dmp_map (linux one_disk) stats_init
        (dmp_ctr (linux one_disk) true (blank_target 8) 1 (fun _ => "/dev/sda")).ti
        { bi_bdev := 1, bi_opf := 0, bi_iter := { bi_sector := 8, bi_size := 4096 } }).map
      (fun r => r.bio.bi_iter.bi_sector) = some (8 + 0)) := by
  refine ⟨by decide, by decide, by decide⟩

/-- C3: for every state of `global_stats`, `volumes_show` returns a text (no
divide fault), and the read and write `avg size` values it prints are the
integer quotient bytes / count of that direction when the count is greater
than 0 and 0 when the count is 0.  With `read_reqs = 10` and
`read_bytes = 40960` the read average is 4096, with `read_reqs = 0` it is 0. -/
theorem C3_report_avg_guarded (g : dmp_stats) :
    ∃ a : show_args, volumes_locals g = some a ∧
      (volumes_show g).isSome = true ∧
      a.avg_read_size =
        (if 0 < atomic64_read g.read_reqs
          then atomic64_read g.read_bytes / atomic64_read g.read_reqs else 0) ∧
      a.avg_write_size =
        (if 0 < atomic64_read g.write_reqs
          then atomic64_read g.write_bytes / atomic64_read g.write_reqs else 0) ∧
      (volumes_locals { g with read_reqs := 10, read_bytes := 40960 }).map
          (fun x => x.avg_read_size) = some 4096 ∧
      (volumes_locals { g with read_reqs := 0 }).map
          (fun x => x.avg_read_size) = some 0 ∧
      (volumes_locals { g with write_reqs := 0 }).map
          (fun x => x.avg_write_size) = some 0 ∧
      (volumes_show { read_reqs := 10, write_reqs := 0, read_bytes := 40960,
                      write_bytes := 0 }).map (fun r => r.2) =
        some "read:\n  reqs: 10\n  avg size: 4096\nwrite:\n  reqs: 0\n  avg size: 0\ntotal:\n  reqs: 10\n  avg size: 4096\n" ∧
      (volumes_show { read_reqs := 0, write_reqs := 3, read_bytes := 0,
                      write_bytes := 1536 }).map (fun r => r.2) =
        some "read:\n  reqs: 0\n  avg size: 0\nwrite:\n  reqs: 3\n  avg size: 512\ntotal:\n  reqs: 3\n  avg size: 512\n" := by
  refine ⟨_, volumes_locals_eq g, ?_, ?_, ?_, ?_, ?_, ?_, ?_, ?_⟩
  · simp [volumes_show, volumes_locals_eq]
  · by_cases h : atomic64_read g.read_reqs = 0
    · simp [h]
    · simp [Nat.pos_of_ne_zero h]
  · by_cases h : atomic64_read g.write_reqs = 0
    · simp [h]
    · simp [Nat.pos_of_ne_zero h]
  · have h1 : atomic64_read 10 = 10 := by decide
    have h2 : atomic64_read 40960 = 40960 := by decide
    simp only [volumes_locals_eq, Option.map_some', h1, h2]
  · have h1 : atomic64_read 0 = 0 := by decide
    simp only [volumes_locals_eq, Option.map_some', h1, Nat.div_zero]
  · have h1 : atomic64_read 0 = 0 := by decide
    simp only [volumes_locals_eq, Option.map_some', h1, Nat.div_zero]
  · decide
  · decide

/-- C4: `dmp_ctr` returns 0 if and only if `argc` is 1, the allocation
succeeds and `dm_get_device` returns 0.  With any other `argc` it returns
`-EINVAL` and never calls `dm_get_device`; with `argc = 1`, a successful
allocation and a failing device lookup it returns the lookup's error code;
whenever it fails the context pointer of the target is left as it was and no
device reference is kept; when it succeeds the installed context has its four
counters equal to zero and `start` equal to zero. -/
theorem C4_ctr_outcomes (k : KernelOps) (alloc_ok : Bool) (ti : dm_target) (argc : Nat)
    (argv : Nat → String) :
    ((dmp_ctr k alloc_ok ti argc argv).ret = 0 ↔
      (argc = 1 ∧ alloc_ok = true ∧ (k.dm_get_device (argv 0) ti.table_mode).1 = 0)) ∧
    (argc ≠ 1 →
      (dmp_ctr k alloc_ok ti argc argv).ret = -EINVAL ∧
      (dmp_ctr k alloc_ok ti argc argv).lookups = []) ∧
    (argc = 1 → alloc_ok = false →
      (dmp_ctr k alloc_ok ti argc argv).ret = -ENOMEM ∧
      (dmp_ctr k alloc_ok ti argc argv).lookups = []) ∧
    (argc = 1 → alloc_ok = true → (k.dm_get_device (argv 0) ti.table_mode).1 ≠ 0 →
      (dmp_ctr k alloc_ok ti argc argv).ret = (k.dm_get_device (argv 0) ti.table_mode).1) ∧
    ((dmp_ctr k alloc_ok ti argc argv).ret ≠ 0 →
      (dmp_ctr k alloc_ok ti argc argv).ti.priv = ti.priv ∧
      (dmp_ctr k alloc_ok ti argc argv).held = none) ∧
    ((dmp_ctr k alloc_ok ti argc argv).ret = 0 →
      ∃ dmp : dmp_c, (dmp_ctr k alloc_ok ti argc argv).ti.priv = some dmp ∧
        dmp.stats = { read_reqs := 0, write_reqs := 0, read_bytes := 0, write_bytes := 0 } ∧
        dmp.start = 0 ∧
        dmp.dev = (k.dm_get_device (argv 0) ti.table_mode).2 ∧
        (dmp_ctr k alloc_ok ti argc argv).held = some dmp.dev) := by
  have hE : (-EINVAL : Int) ≠ 0 := by decide
  have hM : (-ENOMEM : Int) ≠ 0 := by decide
  by_cases h1 : argc = 1
  · cases alloc_ok with
    | false =>
      simp [dmp_ctr, h1, hM]
    | true =>
      by_cases h3 : (k.dm_get_device (argv 0) ti.table_mode).1 = 0
      · simp [dmp_ctr, h1, h3, stats_init, atomic64_set]
      · simp [dmp_ctr, h1, h3]
  · simp [dmp_ctr, h1, hE]

/-- C4 at concrete calls: no token, two tokens, one token naming a missing
device, and one token naming an existing device. -/
theorem C4_ctr_outcomes_witness :
    (dmp_ctr (linux one_disk) true (blank_target 0) 0 (fun _ => "/dev/sda")).ret = -EINVAL ∧
    (dmp_ctr (linux one_disk) true (blank_target 0) 0 (fun _ => "/dev/sda")).lookups = [] ∧
    (dmp_ctr (linux one_disk) true (blank_target 0) 2 (fun _ => "/dev/sda")).ret = -EINVAL ∧
    (dmp_ctr (linux one_disk) true (blank_target 0) 1 (fun _ => "/dev/sdz")).ret = -19 ∧
    (dmp_ctr (linux one_disk) true (blank_target 0) 1 (fun _ => "/dev/sdz")).ti.priv = none ∧
    (dmp_ctr (linux one_disk) false (blank_target 0) 1 (fun _ => "/dev/sda")).ret = -ENOMEM ∧
    (dmp_ctr (linux one_disk) true (blank_target 0) 1 (fun _ => "/dev/sda")).ret = 0 ∧
    (∃ dmp : dmp_c,
      (dmp_ctr (linux one_disk) true (blank_target 0) 1 (fun _ => "/dev/sda")).ti.priv
        = some dmp ∧
      dmp.stats = { read_reqs := 0, write_reqs := 0, read_bytes := 0, write_bytes := 0 } ∧
      dmp.start = 0) := by
  have h0 := C4_ctr_outcomes (linux one_disk) true (blank_target 0) 0 (fun _ => "/dev/sda")
  have h2 := C4_ctr_outcomes (linux one_disk) true (blank_target 0) 2 (fun _ => "/dev/sda")
  have hz := C4_ctr_outcomes (linux one_disk) true (blank_target 0) 1 (fun _ => "/dev/sdz")
  have hm := C4_ctr_outcomes (linux one_disk) false (blank_target 0) 1 (fun _ => "/dev/sda")
  have ha := C4_ctr_outcomes (linux one_disk) true (blank_target 0) 1 (fun _ => "/dev/sda")
  have hret : (dmp_ctr (linux one_disk) true (blank_target 0) 1 (fun _ => "/dev/sda")).ret = 0 :=
    ha.1.mpr ⟨rfl, rfl, by decide⟩
  have hzr : (dmp_ctr (linux one_disk) true (blank_target 0) 1 (fun _ => "/dev/sdz")).ret = -19 :=
    hz.2.2.2.1 rfl rfl (by decide)
  refine ⟨(h0.2.1 (by decide)).1, (h0.2.1 (by decide)).2, (h2.2.1 (by decide)).1, hzr,
    ?_, (hm.2.2.1 rfl rfl).1, hret, ?_⟩
  · exact (hz.2.2.2.2.1 (by rw [hzr]; decide)).1
  · obtain ⟨dmp, hp, hs, hst, -, -⟩ := ha.2.2.2.2.2 hret
    exact ⟨dmp, hp, hs, hst⟩

/-- C5 (as amended): two instances A and B are constructed on a freshly
loaded module and any sequence of `dmp_map` calls is delivered to them, one at
a time, in any distribution.  After every number n of calls the global
`read_reqs` equals (A.read_reqs + B.read_reqs) mod 2^64, and likewise for the
other three fields; it is the plain sum whenever that sum is below 2^64. -/
theorem C5_global_is_sum_mod (k : KernelOps) (targets : Nat → dm_target) (a b : Nat)
    (argvA argvB : Nat → String) (ms : List (Nat × bio)) (n : Nat) (hab : a ≠ b)
    (hca : (dmp_ctr k true (targets a) 1 argvA).ret = 0)
    (hcb : (dmp_ctr k true (targets b) 1 argvB).ret = 0)
    (hm : ∀ m ∈ ms, m.1 = a ∨ m.1 = b) :
    ∃ (w : World) (da db : dmp_c),
      run k (module_loaded targets)
        ([Op.ctr a true 1 argvA, Op.ctr b true 1 argvB] ++ routed_calls (ms.take n)) = some w ∧
      (w.targets a).priv = some da ∧ (w.targets b).priv = some db ∧
      w.global_stats.read_reqs = (da.stats.read_reqs + db.stats.read_reqs) % U64 ∧
      w.global_stats.write_reqs = (da.stats.write_reqs + db.stats.write_reqs) % U64 ∧
      w.global_stats.read_bytes = (da.stats.read_bytes + db.stats.read_bytes) % U64 ∧
      w.global_stats.write_bytes = (da.stats.write_bytes + db.stats.write_bytes) % U64 ∧
      (da.stats.read_reqs + db.stats.read_reqs < U64 →
        w.global_stats.read_reqs = da.stats.read_reqs + db.stats.read_reqs) := by
  obtain ⟨w2, da, db, hrun2, hpa, hpb, hsa, hsb, hg, -⟩ :=
    two_ctrs k targets a b argvA argvB hab hca hcb
  obtain ⟨w, da1, db1, hrun, hpa1, hpb1, hg1, -⟩ :=
    run_two_sum k a b hab stats_init (ms.take n) w2 da db hpa hpb
      (by rw [hg, hsa, hsb]; exact stats_init_sum)
      (fun m hmem => hm m (List.mem_of_mem_take hmem))
  refine ⟨w, da1, db1, ?_, hpa1, hpb1, ?_⟩
  · rw [run_append, hrun2, Option.some_bind]
    exact hrun
  · rw [hg1]
    simp only [stats_mod, stats_plus, stats_init, atomic64_set, Nat.zero_mod, Nat.zero_add,
      true_and]
    intro h
    exact Nat.mod_eq_of_lt h

/-- C5 at a concrete run: a read on A, a write on B, a read on B; after these
three calls the global `read_reqs` is 2 = 1 + 1. -/
theorem C5_global_is_sum_mod_witness :
    ∃ (w : World) (da db : dmp_c),
      run (linux one_disk) (module_loaded fun _ => blank_target 0)
        ([Op.ctr 0 true 1 (fun _ => "/dev/sda"), Op.ctr 1 true 1 (fun _ => "/dev/sda")] ++
          routed_calls (List.take 3 [(0, read_bio 0 4096),
            (1, { bi_bdev := 0, bi_opf := 1, bi_iter := { bi_sector := 0, bi_size := 512 } }),
            (1, read_bio 8 1024)])) = some w ∧
      (w.targets 0).priv = some da ∧ (w.targets 1).priv = some db ∧
      w.global_stats.read_reqs = (da.stats.read_reqs + db.stats.read_reqs) % U64 := by
  obtain ⟨w, da, db, hrun, hpa, hpb, h1, -⟩ :=
    C5_global_is_sum_mod (linux one_disk) (fun _ => blank_target 0) 0 1
      (fun _ => "/dev/sda") (fun _ => "/dev/sda")
      [(0, read_bio 0 4096),
       (1, { bi_bdev := 0, bi_opf := 1, bi_iter := { bi_sector := 0, bi_size := 512 } }),
       (1, read_bio 8 1024)] 3
      (by decide) (by decide) (by decide) (by decide)
  exact ⟨w, da, db, hrun, hpa, hpb, h1⟩

/-- C5, the claim as stated fails: after 2^63 reads on A followed by 2^63
reads on B the global `read_reqs` is 0 while A and B each hold 2^63, whose sum
is 2^64. -/
theorem C5_counterexample :
    (run (linux one_disk) (module_loaded fun _ => blank_target 0)
        ([Op.ctr 0 true 1 (fun _ => "/dev/sda"), Op.ctr 1 true 1 (fun _ => "/dev/sda")] ++
          routed_calls (List.replicate (2 ^ 63) (0, read_bio 0 512) ++
                        List.replicate (2 ^ 63) (1, read_bio 0 512)))).map
      (fun w => (w.global_stats.read_reqs,
                 (w.targets 0).priv.map (fun d => d.stats.read_reqs),
                 (w.targets 1).priv.map (fun d => d.stats.read_reqs)))
      = some (0, some (2 ^ 63), some (2 ^ 63)) ∧
    (0 : Nat) ≠ 2 ^ 63 + 2 ^ 63 := by
  refine ⟨?_, by decide⟩
  obtain ⟨w2, da, db, hrun2, hpa, hpb, hsa, hsb, hg, -⟩ :=
    two_ctrs (linux one_disk) (fun _ => blank_target 0) 0 1
      (fun _ => "/dev/sda") (fun _ => "/dev/sda") (by decide) (by decide) (by decide)
  obtain ⟨w3, da3, hrun3, hpa3, hsa3, hg3, hfr3⟩ :=
    run_reads (linux one_disk) 0 (List.replicate (2 ^ 63) (read_bio 0 512)) w2 da hpa
      (by rw [hsa]; exact stats_init_wf) (by rw [hg]; exact stats_init_wf)
      (fun b hb => by rw [List.eq_of_mem_replicate hb]; decide)
  have hpb3 : (w3.targets 1).priv = some db := by rw [hfr3 1 (by decide)]; exact hpb
  have hwfa3 : stats_wf w3.global_stats := by
    rw [hg3]
    exact stats_wf_set_reads _ _ _ (by rw [hg]; exact stats_init_wf)
  obtain ⟨w4, db4, hrun4, hpb4, hsb4, hg4, hfr4⟩ :=
    run_reads (linux one_disk) 1 (List.replicate (2 ^ 63) (read_bio 0 512)) w3 db hpb3
      (by rw [hsb]; exact stats_init_wf) hwfa3
      (fun b hb => by rw [List.eq_of_mem_replicate hb]; decide)
  have hpa4 : (w4.targets 0).priv = some da3 := by rw [hfr4 0 (by decide)]; exact hpa3
  have hrun : run (linux one_disk) (module_loaded fun _ => blank_target 0)
      ([Op.ctr 0 true 1 (fun _ => "/dev/sda"), Op.ctr 1 true 1 (fun _ => "/dev/sda")] ++
        routed_calls (List.replicate (2 ^ 63) (0, read_bio 0 512) ++
                      List.replicate (2 ^ 63) (1, read_bio 0 512))) = some w4 := by
    rw [run_append, hrun2]
    have hsplit : routed_calls (List.replicate (2 ^ 63) (0, read_bio 0 512) ++
        List.replicate (2 ^ 63) (1, read_bio 0 512)) =
        map_calls 0 (List.replicate (2 ^ 63) (read_bio 0 512)) ++
        map_calls 1 (List.replicate (2 ^ 63) (read_bio 0 512)) := by
      rw [← routed_replicate, ← routed_replicate]
      simp only [routed_calls, List.map_append]
    rw [hsplit, Option.some_bind, run_append, hrun3, Option.some_bind]
    exact hrun4
  rw [hrun]
  simp only [Option.map_some', hpa4, hpb4, hg4, hsb4, hsa3, hg3, hg, hsa, hsb,
    List.length_replicate, stats_init, atomic64_set]
  decide

/-- C7 (as amended): the `total` section of `volumes_show` reports
reqs = (read_reqs + write_reqs) mod 2^64 and
avg size = ((read_bytes + write_bytes) mod 2^64) / reqs when that reqs value is
greater than 0, and 0 otherwise; these two numbers are what the last two lines
of the text print. -/
theorem C7_report_total_wraps (g : dmp_stats) :
    ∃ a : show_args, volumes_locals g = some a ∧
      a.total_reqs = (atomic64_read g.read_reqs + atomic64_read g.write_reqs) % U64 ∧
      a.avg_total_size =
        (if 0 < a.total_reqs
          then ((atomic64_read g.read_bytes + atomic64_read g.write_bytes) % U64) / a.total_reqs
          else 0) ∧
      ∃ head : List Char,
        (volumes_show g).map (fun r => r.2.toList) =
          some (head ++ "total:\n".toList ++ report_line "  reqs: " a.total_reqs ++
                report_line "  avg size: " a.avg_total_size) := by
  refine ⟨_, volumes_locals_eq g, rfl, ?_, ?_⟩
  · by_cases h : (atomic64_read g.read_reqs + atomic64_read g.write_reqs) % U64 = 0
    · simp [h]
    · simp [Nat.pos_of_ne_zero h]
  · refine ⟨"read:\n".toList ++ report_line "  reqs: " (atomic64_read g.read_reqs) ++
        report_line "  avg size: " (atomic64_read g.read_bytes / atomic64_read g.read_reqs) ++
        "write:\n".toList ++ report_line "  reqs: " (atomic64_read g.write_reqs) ++
        report_line "  avg size: " (atomic64_read g.write_bytes / atomic64_read g.write_reqs), ?_⟩
    simp only [volumes_show, volumes_locals_eq, Option.map_some', sprintf_volumes]
    rfl

/-- C7, the claim as stated fails: with `read_reqs = write_reqs = 2^63` the
report prints total reqs 0, not 2^63 + 2^63; with one read and one write of
2^63 bytes each it prints total avg size 0, not (2^63 + 2^63) / (1 + 1). -/
theorem C7_counterexample :
    (volumes_locals { read_reqs := 2 ^ 63, write_reqs := 2 ^ 63, read_bytes := 0,
                      write_bytes := 0 }).map (fun a => a.total_reqs) = some 0 ∧
    ¬ ((volumes_locals { read_reqs := 2 ^ 63, write_reqs := 2 ^ 63, read_bytes := 0,
                         write_bytes := 0 }).map (fun a => a.total_reqs)
        = some (2 ^ 63 + 2 ^ 63)) ∧
    (volumes_locals { read_reqs := 1, write_reqs := 1, read_bytes := 2 ^ 63,
                      write_bytes := 2 ^ 63 }).map (fun a => a.avg_total_size) = some 0 ∧
    ¬ ((volumes_locals { read_reqs := 1, write_reqs := 1, read_bytes := 2 ^ 63,
                         write_bytes := 2 ^ 63 }).map (fun a => a.avg_total_size)
        = some ((2 ^ 63 + 2 ^ 63) / (1 + 1))) := by
  refine ⟨?_, ?_, ?_, ?_⟩ <;> simp [volumes_locals_eq, atomic64_read, U64]

/-- C8: for every state of `global_stats`, `volumes_show` returns the
nine-line text `read:` / `  reqs: n` / `  avg size: n` / `write:` / `  reqs: n` /
`  avg size: n` / `total:` / `  reqs: n` / `  avg size: n`, every line ended by a
newline, in the order read, write, total; the return value is the length of
the text; each of the six numbers is printed as a non-empty string of decimal
digits whose value is the number; and in each section `avg size` is 0 whenever
the `reqs` value printed in that section is 0. -/
theorem C8_report_layout (g : dmp_stats) :
    ∃ a : show_args, volumes_locals g = some a ∧
      volumes_show g =
        some (((
          "read:\n".toList ++ report_line "  reqs: " a.read_reqs ++
            report_line "  avg size: " a.avg_read_size ++
          "write:\n".toList ++ report_line "  reqs: " a.write_reqs ++
            report_line "  avg size: " a.avg_write_size ++
          "total:\n".toList ++ report_line "  reqs: " a.total_reqs ++
            report_line "  avg size: " a.avg_total_size).length : Int),
          String.mk (
          "read:\n".toList ++ report_line "  reqs: " a.read_reqs ++
            report_line "  avg size: " a.avg_read_size ++
          "write:\n".toList ++ report_line "  reqs: " a.write_reqs ++
            report_line "  avg size: " a.avg_write_size ++
          "total:\n".toList ++ report_line "  reqs: " a.total_reqs ++
            report_line "  avg size: " a.avg_total_size)) ∧
      (∀ n ∈ [a.read_reqs, a.avg_read_size, a.write_reqs, a.avg_write_size,
              a.total_reqs, a.avg_total_size],
          fmt_llu n ≠ [] ∧ (∀ c ∈ fmt_llu n, c.isDigit = true) ∧
          dec_val (fmt_llu n) = n) ∧
      (a.read_reqs = 0 → a.avg_read_size = 0) ∧
      (a.write_reqs = 0 → a.avg_write_size = 0) ∧
      (a.total_reqs = 0 → a.avg_total_size = 0) := by
  refine ⟨_, volumes_locals_eq g, ?_, ?_, ?_, ?_, ?_⟩
  · simp only [volumes_show, volumes_locals_eq, Option.map_some', sprintf_volumes]
  · have hlt : ∀ x, atomic64_read x < U64 := fun x => Nat.mod_lt _ (by decide)
    have hdiv : ∀ x y, atomic64_read x / y < U64 :=
      fun x y => lt_of_le_of_lt (Nat.div_le_self _ _) (hlt x)
    have hm : ∀ x, x % U64 < U64 := fun x => Nat.mod_lt _ (by decide)
    have hmd : ∀ x y, (x % U64) / y < U64 :=
      fun x y => lt_of_le_of_lt (Nat.div_le_self _ _) (hm x)
    have key : ∀ n, n < U64 → fmt_llu n ≠ [] ∧ (∀ c ∈ fmt_llu n, c.isDigit = true) ∧
        dec_val (fmt_llu n) = n := by
      intro n hn
      have h := fmt_llu_spec n
      rw [Nat.mod_eq_of_lt hn] at h
      exact h
    intro n hn
    simp only [List.mem_cons, List.mem_singleton, List.not_mem_nil, or_false] at hn
    rcases hn with h | h | h | h | h | h <;> subst h
    · exact key _ (hlt _)
    · exact key _ (hdiv _ _)
    · exact key _ (hlt _)
    · exact key _ (hdiv _ _)
    · exact key _ (hm _)
    · exact key _ (hmd _ _)
  · intro h; simp only [] at h ⊢; rw [h]; exact Nat.div_zero _
  · intro h; simp only [] at h ⊢; rw [h]; exact Nat.div_zero _
  · intro h; simp only [] at h ⊢; rw [h]; exact Nat.div_zero _

/-- C8 at a concrete state (4 reads of 4096 bytes, no write): the write
section prints `avg size` 0 under `reqs` 0. -/
theorem C8_report_layout_witness :
    ∃ a : show_args,
      volumes_locals { read_reqs := 4, write_reqs := 0, read_bytes := 16384,
                       write_bytes := 0 } = some a ∧
      a.write_reqs = 0 ∧ a.avg_write_size = 0 := by
  obtain ⟨a, ha, -, -, -, hw, -⟩ :=
    C8_report_layout { read_reqs := 4, write_reqs := 0, read_bytes := 16384, write_bytes := 0 }
  have h0 : a.write_reqs = 0 := by
    have : some a = some _ := ha.symm.trans (volumes_locals_eq _)
    injection this with this
    rw [this]; decide
  exact ⟨a, ha, h0, hw h0⟩

/-- C10 (as amended): T execution contexts each issue M requests to any
constructed instances, starting from freshly initialised global counters, and
the atomic calls of their `dmp_update_stats` take effect in any interleaving
that keeps each context's program order.  Then every call completes, the
global counters end equal to those of processing the same requests one at a
time, the global request counts total T×M modulo 2^64 and the global byte
counts total the sum of all request lengths modulo 2^64; the totals are
exactly T×M and the exact sum whenever these are below 2^64. -/
theorem C10_interleaved_totals_mod (k : KernelOps) (w : World)
    (ts : List (List (Nat × bio))) (M : Nat) (l : List atomic_step)
    (hg : w.global_stats = stats_init)
    (hlive : ∀ t ∈ ts, ∀ r ∈ t, (w.targets r.1).priv ≠ none)
    (hM : ∀ t ∈ ts, t.length = M)
    (hs : ∀ t ∈ ts, ∀ r ∈ t, r.2.bi_iter.bi_size < U32)
    (hl : Interleave (ts.map (thread_steps k)) l) :
    ∃ w1 ws : World, atomic_run w l = some w1 ∧
      run k w (routed_calls ts.flatten) = some ws ∧
      w1.global_stats = ws.global_stats ∧
      (w1.global_stats.read_reqs + w1.global_stats.write_reqs) % U64 =
        (ts.length * M) % U64 ∧
      (w1.global_stats.read_bytes + w1.global_stats.write_bytes) % U64 =
        (ts.flatten.map fun r => r.2.bi_iter.bi_size).sum % U64 ∧
      (ts.length * M < U64 →
        w1.global_stats.read_reqs + w1.global_stats.write_reqs = ts.length * M) ∧
      ((ts.flatten.map fun r => r.2.bi_iter.bi_size).sum < U64 →
        w1.global_stats.read_bytes + w1.global_stats.write_bytes =
          (ts.flatten.map fun r => r.2.bi_iter.bi_size).sum) := by
  obtain ⟨w1, ws, hrun1, hrun2, heq, hg1⟩ := interleaved_totals k w ts l hg hlive hl
  obtain ⟨hc, hb⟩ := reqs_adds_totals k ts.flatten
  rw [length_flatten_const M ts hM] at hc
  rw [sum_mod_sizes ts.flatten (fun r hr => by
    obtain ⟨t, ht, hrt⟩ := List.mem_flatten.mp hr
    exact hs t ht r hrt)] at hb
  refine ⟨w1, ws, hrun1, hrun2, heq, ?_⟩
  rw [hg1]
  simp only [stats_mod]
  generalize (reqs_adds k ts.flatten).read_reqs = a at hc
  generalize (reqs_adds k ts.flatten).write_reqs = b at hc
  generalize (reqs_adds k ts.flatten).read_bytes = c at hb
  generalize (reqs_adds k ts.flatten).write_bytes = d at hb
  generalize (ts.flatten.map fun r => r.2.bi_iter.bi_size).sum = S at hb
  generalize ts.length * M = N at hc
  refine ⟨?_, ?_, ?_, ?_⟩
  · unfold U64; omega
  · unfold U64; omega
  · intro h; unfold U64 at *; omega
  · intro h; unfold U64 at *; omega

/-- C10 at a concrete run: two contexts with two requests each (a 4096-byte
read and a 512-byte write on target 0; a 1024-byte read on target 1 and a
512-byte read on target 0), their sixteen atomic calls interleaved by a
schedule.  The global request counts total 4 and the byte counts 6144. -/
theorem C10_interleaved_totals_mod_witness :
    ∃ w1 : World,
      atomic_run (all_constructed stats_init)
        (merge_by [true, false, false, true, true, false, true, false, false, true]
          (thread_steps (linux one_disk)
            [(0, read_bio 0 4096),
             (0, { bi_bdev := 0, bi_opf := 1, bi_iter := { bi_sector := 0, bi_size := 512 } })])
          (thread_steps (linux one_disk) [(1, read_bio 8 1024), (0, read_bio 16 512)]))
        = some w1 ∧
      w1.global_stats.read_reqs + w1.global_stats.write_reqs = 4 ∧
      w1.global_stats.read_bytes + w1.global_stats.write_bytes = 6144 := by
  obtain ⟨w1, ws, hrun, -, -, -, -, hc, hb⟩ :=
    C10_interleaved_totals_mod (linux one_disk) (all_constructed stats_init)
      [[(0, read_bio 0 4096),
        (0, { bi_bdev := 0, bi_opf := 1, bi_iter := { bi_sector := 0, bi_size := 512 } })],
       [(1, read_bio 8 1024), (0, read_bio 16 512)]]
      2
      (merge_by [true, false, false, true, true, false, true, false, false, true]
        (thread_steps (linux one_disk)
          [(0, read_bio 0 4096),
           (0, { bi_bdev := 0, bi_opf := 1, bi_iter := { bi_sector := 0, bi_size := 512 } })])
        (thread_steps (linux one_disk) [(1, read_bio 8 1024), (0, read_bio 16 512)]))
      rfl
      (fun _ _ r _ => all_constructed_live stats_init r.1)
      (by decide) (by decide)
      (Interleave.cons (Interleave.cons Interleave.nil (shuffle_nil_right _))
        (shuffle_merge_by _ _ _))
  exact ⟨w1, hrun, hc (by decide), hb (by decide)⟩

/-- C10, the claim as stated fails: two contexts each issue 2^31 + 1 reads of
2^32 - 1 bytes to one instance, the first context running before the second
(one of the interleavings).  The global request counts total 2^32 + 2, but
the global byte counts total 2^32 - 2, not the sum of the lengths, which is
2^64 + 2^32 - 2. -/
theorem C10_counterexample :
    Interleave
      ([List.replicate (2 ^ 31 + 1) (0, read_bio 0 (2 ^ 32 - 1)),
        List.replicate (2 ^ 31 + 1) (0, read_bio 0 (2 ^ 32 - 1))].map
          (thread_steps (linux one_disk)))
      (([List.replicate (2 ^ 31 + 1) (0, read_bio 0 (2 ^ 32 - 1)),
         List.replicate (2 ^ 31 + 1) (0, read_bio 0 (2 ^ 32 - 1))].map
          (thread_steps (linux one_disk))).flatten) ∧
    (atomic_run (all_constructed stats_init)
      (([List.replicate (2 ^ 31 + 1) (0, read_bio 0 (2 ^ 32 - 1)),
         List.replicate (2 ^ 31 + 1) (0, read_bio 0 (2 ^ 32 - 1))].map
          (thread_steps (linux one_disk))).flatten)).map
      (fun w => (w.global_stats.read_reqs + w.global_stats.write_reqs,
                 w.global_stats.read_bytes + w.global_stats.write_bytes))
      = some (2 ^ 32 + 2, 2 ^ 32 - 2) ∧
    (2 : Nat) * (2 ^ 31 + 1) * (2 ^ 32 - 1) = 2 ^ 64 + 2 ^ 32 - 2 ∧
    (2 ^ 32 - 2 : Nat) ≠ 2 ^ 64 + 2 ^ 32 - 2 := by
  refine ⟨interleave_flatten _, ?_, by decide, by decide⟩
  obtain ⟨w1, ws, hrun, -, -, hg1⟩ :=
    interleaved_totals (linux one_disk) (all_constructed stats_init)
      [List.replicate (2 ^ 31 + 1) (0, read_bio 0 (2 ^ 32 - 1)),
       List.replicate (2 ^ 31 + 1) (0, read_bio 0 (2 ^ 32 - 1))]
      _ rfl (fun _ _ r _ => all_constructed_live stats_init r.1) (interleave_flatten _)
  have hflat : [List.replicate (2 ^ 31 + 1) ((0 : Nat), read_bio 0 (2 ^ 32 - 1)),
      List.replicate (2 ^ 31 + 1) (0, read_bio 0 (2 ^ 32 - 1))].flatten =
      List.replicate (2 ^ 31 + 1) (0, read_bio 0 (2 ^ 32 - 1)) ++
      List.replicate (2 ^ 31 + 1) (0, read_bio 0 (2 ^ 32 - 1)) := by
    rw [List.flatten_cons, List.flatten_cons, List.flatten_nil, List.append_nil]
  have hreads : ∀ r ∈ List.replicate (2 ^ 31 + 1) ((0 : Nat), read_bio 0 (2 ^ 32 - 1)) ++
      List.replicate (2 ^ 31 + 1) (0, read_bio 0 (2 ^ 32 - 1)),
      (linux one_disk).bio_data_dir r.2 = READ := by
    intro r hr
    rcases List.mem_append.mp hr with h | h <;>
    (rw [List.eq_of_mem_replicate h]; decide)
  have hlen : (List.replicate (2 ^ 31 + 1) ((0 : Nat), read_bio 0 (2 ^ 32 - 1)) ++
      List.replicate (2 ^ 31 + 1) (0, read_bio 0 (2 ^ 32 - 1))).length = 2 ^ 32 + 2 := by
    rw [List.length_append, List.length_replicate]
    decide
  have hsum : ((List.replicate (2 ^ 31 + 1) ((0 : Nat), read_bio 0 (2 ^ 32 - 1)) ++
      List.replicate (2 ^ 31 + 1) (0, read_bio 0 (2 ^ 32 - 1))).map
        fun (r : Nat × bio) => r.2.bi_iter.bi_size % U32).sum = 2 ^ 64 + 2 ^ 32 - 2 := by
    rw [List.map_append, List.sum_append, List.map_replicate, List.sum_replicate, smul_eq_mul]
    decide
  have hadds := reqs_adds_reads (linux one_disk) _ hreads
  rw [hlen, hsum] at hadds
  rw [hflat, hadds] at hg1
  rw [hrun]
  simp only [Option.map_some', hg1, stats_mod]
  decide

end Dmp
